import Mathlib

/-!
Verification of the `ec` entity-component storage engine (`src/ec.hpp`).

The C++ header is shallowly embedded: `std::vector` becomes `List`,
`char` flags become `Bool`, the `uint32_t` entity counter wraps modulo
`2 ^ 32`, and the per-`World` type registry (keyed in C++ by
`typeid(T).hash_code()`) is keyed here by a `Nat` standing for the
component type; component payloads live in an arbitrary inhabited type
`Val`.  Templates over component types `T` become functions taking the
type key `h`.  `query` returns the list of visitor invocations (entity
id together with the component values passed by pointer); a `none`
result marks an execution that reaches an access with no defined
behavior (dereferencing a null pool pointer or indexing a vector out of
range).
-/

namespace ec

/-- Status result: `enum class Status { OK = 0, ERROR = 1 }`. -/
inductive Status where
  | OK : Status
  | ERROR : Status
deriving DecidableEq, Repr

/-- Resizing, as `std::vector::resize(n, v)`: truncates to the first `n` elements when
`n` is at most the length, otherwise appends copies of `v` up to length `n`. -/
def listResize (l : List α) (n : Nat) (v : α) : List α :=
  l.take n ++ List.replicate (n - l.length) v

/-- Component pool `Pool<T>`: parallel value and presence arrays
(`std::vector<T> data; std::vector<char> mask`). -/
structure Pool (Val : Type) where
  data : List Val
  mask : List Bool

/-- Growth operation `Pool<T>::ensureSize(n)`: grows both arrays to length `n` (values
default-constructed, presence flags cleared) when `data` is shorter than `n`. -/
def Pool.ensureSize [Inhabited Val] (p : Pool Val) (n : Nat) : Pool Val :=
  if p.data.length < n then
    { data := listResize p.data n default, mask := listResize p.mask n false }
  else p

/-- The `struct World`: liveness table, wrapping 32-bit entity counter,
type-erased pool table, type registry and its counter. -/
structure World (Val : Type) where
  alive : List Bool
  nextEntity : Nat
  pools : List (Option (Pool Val))
  typeMap : List (Nat × Nat)
  typeCounter : Nat

/-- The `World` constructor: the capacity hints only reserve memory and have
no observable effect, so a fresh world is empty. -/
def World.init : World Val :=
  { alive := [], nextEntity := 0, pools := [], typeMap := [], typeCounter := 0 }

/-- Registry lookup, `std::unordered_map::find`, on the type registry (first matching key). -/
def lookupType (h : Nat) : List (Nat × Nat) → Option Nat
  | [] => none
  | p :: t => if p.1 = h then some p.2 else lookupType h t

/-- Slot resolution `World::getTypeId<T>()`: find-or-assign the dense slot of type `h`;
a fresh assignment records the mapping and grows the pool table (with null
entries) so that the slot is in range. -/
def getTypeId (h : Nat) (w : World Val) : Nat × World Val :=
  match lookupType h w.typeMap with
  | some id => (id, w)
  | none =>
    let id := w.typeCounter
    let pools1 := if w.pools.length ≤ id then listResize w.pools (id + 1) none else w.pools
    (id, { w with typeCounter := id + 1
                  typeMap := (h, id) :: w.typeMap
                  pools := pools1 })

/-- Storage growth `World::ensureEntity(e)`: when `e` is past the liveness table, grow the
table to `e + 1` (new entries dead) and grow every non-null pool to `e + 1`. -/
def World.ensureEntity [Inhabited Val] (w : World Val) (e : Nat) : World Val :=
  if w.alive.length ≤ e then
    { w with alive := listResize w.alive (e + 1) false
             pools := w.pools.map (Option.map (Pool.ensureSize · (e + 1))) }
  else w

/-- Pool materialization `World::ensurePool<T>(typeId)`: materialize the pool at `typeId` if it is
null, grow it to the current size of the liveness table, and return it. -/
def World.ensurePool [Inhabited Val] (w : World Val) (tid : Nat) : Pool Val × World Val :=
  let p0 := (w.pools.getD tid none).getD { data := [], mask := [] }
  let p := p0.ensureSize w.alive.length
  (p, { w with pools := w.pools.set tid (some p) })

/-- Entity creation `create_entity`: issue the next id from the wrapping 32-bit counter, grow
storage to cover it, and mark it alive. -/
def create_entity [Inhabited Val] (w : World Val) : Nat × World Val :=
  let id := w.nextEntity
  let w1 : World Val := { w with nextEntity := (id + 1) % 2 ^ 32 }
  let w2 := w1.ensureEntity id
  (id, { w2 with alive := w2.alive.set id true })

/-- Entity destruction `destroy_entity`: clear the liveness flag when `e` is in range, otherwise
do nothing. -/
def destroy_entity (w : World Val) (e : Nat) : World Val :=
  if e < w.alive.length then { w with alive := w.alive.set e false } else w

/-- Attaching `add_component<T>`: fail on an out-of-range or dead entity; otherwise
resolve the slot of `h`, ensure its pool, store the value and set the flag. -/
def add_component [Inhabited Val] (h : Nat) (e : Nat) (v : Val) (w : World Val) :
    Status × World Val :=
  if w.alive.length ≤ e ∨ w.alive.getD e false = false then
    (Status.ERROR, w)
  else
    let tw := getTypeId h w
    let pw := tw.2.ensurePool tw.1
    let pool1 : Pool Val := { data := pw.1.data.set e v, mask := pw.1.mask.set e true }
    (Status.OK, { pw.2 with pools := pw.2.pools.set tw.1 (some pool1) })

/-- Lookup `get_component<T>`: resolve the slot of `h` (registering the type if
needed); report `none` when the slot has no pool, `e` is past the value
array, or the presence flag is clear; otherwise return the stored value. -/
def get_component [Inhabited Val] (h : Nat) (e : Nat) (w : World Val) :
    Option Val × World Val :=
  let tw := getTypeId h w
  match tw.2.pools.getD tw.1 none with
  | none => (none, tw.2)
  | some pool =>
    if pool.data.length ≤ e ∨ pool.mask.getD e false = false then (none, tw.2)
    else (some (pool.data.getD e default), tw.2)

/-- Detaching `remove_component<T>`: resolve the slot of `h` (registering the type if
needed); fail when the slot has no pool; otherwise clear the presence flag
when `e` is within the mask and report success. -/
def remove_component (h : Nat) (e : Nat) (w : World Val) : Status × World Val :=
  let tw := getTypeId h w
  match tw.2.pools.getD tw.1 none with
  | none => (Status.ERROR, tw.2)
  | some pool =>
    let pool1 : Pool Val :=
      { pool with mask := if e < pool.mask.length then pool.mask.set e false else pool.mask }
    (Status.OK, { tw.2 with pools := tw.2.pools.set tw.1 (some pool1) })

/-- The slot resolution `{ w.getTypeId<Ts>()... }` at the head of `query`,
performed left to right. -/
def getTypeIds : List Nat → World Val → List Nat × World Val
  | [], w => ([], w)
  | h :: t, w =>
    let tw := getTypeId h w
    let rest := getTypeIds t tw.2
    (tw.1 :: rest.1, rest.2)

/-- The per-entity fold of `query`: each requested pool is dereferenced in
turn (a null pool is undefined behavior, `none`); a clear or out-of-range
presence flag makes the entity a non-match (`some none`) but the remaining
pools are still dereferenced; a set flag takes the data pointer, which is
undefined behavior when `e` is past the value array. -/
def probe [Inhabited Val] (w : World Val) (e : Nat) : List Nat → Option (Option (List Val))
  | [] => some (some [])
  | tid :: tids =>
    match w.pools.getD tid none with
    | none => none
    | some pl =>
      if e < pl.mask.length ∧ pl.mask.getD e false = true then
        if e < pl.data.length then
          (probe w e tids).map (Option.map (pl.data.getD e default :: ·))
        else none
      else (probe w e tids).map (fun _ => none)

/-- The liveness test of the `query` scan:
`e` is skipped unless it is in range and alive. -/
def aliveB (w : World Val) (e : Nat) : Bool :=
  decide (e < w.alive.length) && w.alive.getD e false

/-- The entity scan of `query` over a list of candidate ids. -/
def queryLoop [Inhabited Val] (w : World Val) (tids : List Nat) :
    List Nat → Option (List (Nat × List Val))
  | [] => some []
  | e :: es =>
    if aliveB w e then
      match probe w e tids with
      | none => none
      | some none => queryLoop w tids es
      | some (some vals) => (queryLoop w tids es).map ((e, vals) :: ·)
    else queryLoop w tids es

/-- The scan `query<Ts...>(w, f)`: resolve all slots up front, then scan entity ids
`0, …, nextEntity - 1`.  The returned list models the sequence of visitor
invocations (entity id with the component values passed by pointer);
`none` marks an execution reaching undefined behavior. -/
def query [Inhabited Val] (hs : List Nat) (w : World Val) :
    Option (List (Nat × List Val)) × World Val :=
  let tw := getTypeIds hs w
  (queryLoop tw.2 tw.1 (List.range tw.2.nextEntity), tw.2)

/-! ### Observables and the specification-side description of `query` -/

/-- A pool for type `h` exists: the type has a slot and the slot holds a
non-null pool. -/
def poolExists (w : World Val) (h : Nat) : Bool :=
  match lookupType h w.typeMap with
  | none => false
  | some tid => (w.pools.getD tid none).isSome

/-- The presence flag of type `h` at entity `e`, as far as it is stored. -/
def presentB (w : World Val) (h : Nat) (e : Nat) : Bool :=
  match lookupType h w.typeMap with
  | none => false
  | some tid =>
    match w.pools.getD tid none with
    | none => false
    | some pl => decide (e < pl.mask.length) && pl.mask.getD e false

/-- The stored value of type `h` at entity `e` (defaulted when absent). -/
def dataValB [Inhabited Val] (w : World Val) (h : Nat) (e : Nat) : Val :=
  match lookupType h w.typeMap with
  | none => default
  | some tid =>
    match w.pools.getD tid none with
    | none => default
    | some pl => pl.data.getD e default

/-- The value `get_component` would report, read off the state without the
registration side effect. -/
def observe [Inhabited Val] (w : World Val) (h : Nat) (e : Nat) : Option Val :=
  match lookupType h w.typeMap with
  | none => none
  | some tid =>
    match w.pools.getD tid none with
    | none => none
    | some pl =>
      if pl.data.length ≤ e ∨ pl.mask.getD e false = false then none
      else some (pl.data.getD e default)

/-- The visit list demanded by the specification: the alive entities whose
presence flag is set for every requested type, in ascending id order, each
with its stored component values. -/
def querySpec [Inhabited Val] (w : World Val) (hs : List Nat) : List (Nat × List Val) :=
  ((List.range w.nextEntity).filter
      (fun e => aliveB w e && hs.all (fun h => presentB w h e))).map
    (fun e => (e, hs.map (fun h => dataValB w h e)))

/-! ### Reachable-state invariant -/

/-- The structural invariant of reachable worlds: every materialized pool has
both arrays exactly as long as the liveness table, the pool table is exactly
as long as the slot counter, every assigned slot is below the counter, and
the registry has pairwise distinct type keys and pairwise distinct slots. -/
def Inv (w : World Val) : Prop :=
  (∀ p ∈ w.pools, ∀ q, p = some q →
      q.data.length = w.alive.length ∧ q.mask.length = w.alive.length) ∧
  w.pools.length = w.typeCounter ∧
  (∀ pr ∈ w.typeMap, pr.2 < w.typeCounter) ∧
  w.typeMap.Pairwise (fun a b => a.1 ≠ b.1 ∧ a.2 ≠ b.2)

/-- One call of the public API, with its arguments. -/
inductive Op (Val : Type) where
  | create : Op Val
  | destroy : Nat → Op Val
  | add : Nat → Nat → Val → Op Val
  | remove : Nat → Nat → Op Val
  | get : Nat → Nat → Op Val
  | queryOp : List Nat → Op Val

/-- The state transformation of one public call. -/
def Op.apply [Inhabited Val] : Op Val → World Val → World Val
  | .create, w => (create_entity w).2
  | .destroy e, w => destroy_entity w e
  | .add h e v, w => (add_component h e v w).2
  | .remove h e, w => (remove_component h e w).2
  | .get h e, w => (get_component h e w).2
  | .queryOp hs, w => (query hs w).2

/-- Reachability `Reached w n`: world `w` arises from a fresh world by a sequence of
public calls among which exactly `n` are `create_entity`. -/
inductive Reached [Inhabited Val] : World Val → Nat → Prop where
  | init : Reached World.init 0
  | create {w : World Val} {n : Nat} :
      Reached w n → Reached (create_entity w).2 (n + 1)
  | destroy {w : World Val} {n : Nat} (e : Nat) :
      Reached w n → Reached (destroy_entity w e) n
  | add {w : World Val} {n : Nat} (h e : Nat) (v : Val) :
      Reached w n → Reached (add_component h e v w).2 n
  | remove {w : World Val} {n : Nat} (h e : Nat) :
      Reached w n → Reached (remove_component h e w).2 n
  | get {w : World Val} {n : Nat} (h e : Nat) :
      Reached w n → Reached (get_component h e w).2 n
  | queryOp {w : World Val} {n : Nat} (hs : List Nat) :
      Reached w n → Reached (query hs w).2 n

/-- Pool storage only grows from `w` to `w2`: every materialized pool keeps
its slot and neither of its arrays shrinks. -/
def Grows (w w2 : World Val) : Prop :=
  ∀ i p, w.pools.getD i none = some p →
    ∃ q, w2.pools.getD i none = some q ∧
      p.data.length ≤ q.data.length ∧ p.mask.length ≤ q.mask.length

/-- Relation stating `w2` differs from `w` at most by type registration: liveness, the entity
counter and every observable component association are identical. -/
def RegOnly [Inhabited Val] (w w2 : World Val) : Prop :=
  w2.alive = w.alive ∧ w2.nextEntity = w.nextEntity ∧
  (∀ h, poolExists w2 h = poolExists w h) ∧
  (∀ h e, presentB w2 h e = presentB w h e) ∧
  (∀ h e, dataValB w2 h e = dataValB w h e) ∧
  (∀ h e, observe w2 h e = observe w h e)

/-- Relation stating `tids` are exactly the slots of the requested types `hs` in `w`. -/
def TidsFor (w : World Val) : List Nat → List Nat → Prop :=
  List.Forall₂ (fun h t => lookupType h w.typeMap = some t)

/-- The trace-counting invariant: after `n` calls of `create_entity` the
liveness table has `min n (2 ^ 32)` entries and the wrapping counter reads
`n % 2 ^ 32`. -/
def CInv (w : World Val) (n : Nat) : Prop :=
  w.alive.length = min n (2 ^ 32) ∧ w.nextEntity = n % 2 ^ 32

/-- Iterate `k` successive `create_entity` calls. -/
def createN [Inhabited Val] (k : Nat) (w : World Val) : World Val :=
  (fun w => (create_entity w).2)^[k] w

/-- Sample world: two entities `0`, `1`, both alive. -/
def sample2 : World Nat := (create_entity (create_entity World.init).2).2

/-- Sample world: entity `0` carries component type `0` with value `35`. -/
def sampleAdd : World Nat := (add_component 0 0 35 sample2).2

/-- Sample world: entity `0` carries type `0` (value `11`); entity `1`
carries type `0` (value `55`) and type `1` (value `77`). -/
def sampleQ : World Nat :=
  (add_component 1 1 77 (add_component 0 1 55 (add_component 0 0 11 sample2).2).2).2

/-! ### List-level helper lemmas -/

theorem length_listResize (l : List α) (n : Nat) (v : α) :
    (listResize l n v).length = n := by
  simp [listResize]
  omega

theorem getElem?_listResize (l : List α) (n : Nat) (v : α) (i : Nat) :
    (listResize l n v)[i]? =
      if i < n then (if i < l.length then l[i]? else some v) else none := by
  simp only [listResize, List.getElem?_append, List.length_take, List.getElem?_take,
    List.getElem?_replicate]
  split_ifs <;> first | rfl | (exfalso; omega)

theorem listResize_of_length_le (l : List α) (n : Nat) (v : α) (hn : l.length ≤ n) :
    listResize l n v = l ++ List.replicate (n - l.length) v := by
  simp [listResize, List.take_of_length_le hn]

theorem getD_listResize (l : List α) (n : Nat) (v d : α) (i : Nat) :
    (listResize l n v).getD i d =
      if i < n then (if i < l.length then l.getD i d else v) else d := by
  rw [List.getD_eq_getElem?_getD, getElem?_listResize]
  split_ifs <;> simp [List.getD_eq_getElem?_getD]

theorem getD_set_self (l : List α) (i : Nat) (a d : α) (hi : i < l.length) :
    (l.set i a).getD i d = a := by
  rw [List.getD_eq_getElem?_getD, List.getElem?_set_self hi]
  rfl

theorem getD_set_ne (l : List α) (i j : Nat) (a d : α) (hij : i ≠ j) :
    (l.set i a).getD j d = l.getD j d := by
  rw [List.getD_eq_getElem?_getD, List.getElem?_set_ne hij, ← List.getD_eq_getElem?_getD]

theorem getD_append_left (l l2 : List α) (i : Nat) (d : α) (hi : i < l.length) :
    (l ++ l2).getD i d = l.getD i d := by
  rw [List.getD_eq_getElem?_getD, List.getElem?_append, if_pos hi, ← List.getD_eq_getElem?_getD]

theorem mem_of_getD_eq_some {l : List (Option β)} {i : Nat} {p : β}
    (hp : l.getD i none = some p) : some p ∈ l := by
  rw [List.getD_eq_getElem?_getD] at hp
  cases hg : l[i]? with
  | none => rw [hg] at hp; exact absurd hp (by simp)
  | some o =>
    rw [hg] at hp
    simp only [Option.getD_some] at hp
    subst hp
    obtain ⟨hlt, hEq⟩ := List.getElem?_eq_some.1 hg
    exact hEq ▸ List.getElem_mem hlt

/-! ### `lookupType` facts -/

theorem lookupType_mem {h s : Nat} :
    ∀ {l : List (Nat × Nat)}, lookupType h l = some s → (h, s) ∈ l := by
  intro l
  induction l with
  | nil => intro hc; exact absurd hc (by simp [lookupType])
  | cons p t ih =>
    intro hl
    rw [lookupType] at hl
    by_cases hp : p.1 = h
    · rw [if_pos hp] at hl
      injection hl with h2
      have hps : p = (h, s) := Prod.ext hp h2
      rw [← hps]
      exact List.mem_cons_self p t
    · rw [if_neg hp] at hl
      exact List.mem_cons_of_mem _ (ih hl)

theorem lookupType_eq_none {h : Nat} :
    ∀ {l : List (Nat × Nat)}, lookupType h l = none ↔ ∀ pr ∈ l, pr.1 ≠ h := by
  intro l
  induction l with
  | nil => simp [lookupType]
  | cons p t ih =>
    rw [lookupType]
    by_cases hp : p.1 = h
    · simp [hp]
    · rw [if_neg hp, ih]
      constructor
      · intro ha pr hpr
        rcases List.mem_cons.1 hpr with hh | hh
        · subst hh; exact hp
        · exact ha pr hh
      · intro ha pr hpr
        exact ha pr (List.mem_cons_of_mem _ hpr)

/-- Distinct type keys resolve to distinct slots in a pairwise-distinct
registry. -/
theorem lookupType_inj {w : World Val} (hw : Inv w) {h1 h2 s1 s2 : Nat}
    (hne : h1 ≠ h2) (l1 : lookupType h1 w.typeMap = some s1)
    (l2 : lookupType h2 w.typeMap = some s2) : s1 ≠ s2 := by
  have m1 := lookupType_mem l1
  have m2 := lookupType_mem l2
  have hsymm : Symmetric (fun a b : Nat × Nat => a.1 ≠ b.1 ∧ a.2 ≠ b.2) := by
    intro a b hab
    exact ⟨hab.1.symm, hab.2.symm⟩
  have hpair := hw.2.2.2
  have hdiff : (h1, s1) ≠ (h2, s2) := by
    intro hc
    cases hc
    exact hne rfl
  exact (List.Pairwise.forall hsymm hpair m1 m2 hdiff).2

/-- Every slot assigned in the registry is below the slot counter. -/
theorem lookupType_lt {w : World Val} (hw : Inv w) {h s : Nat}
    (hl : lookupType h w.typeMap = some s) : s < w.typeCounter :=
  hw.2.2.1 _ (lookupType_mem hl)

/-! ### `getTypeId` characterization and frame lemmas -/

/-- Case analysis: `getTypeId` either finds the slot and leaves the world alone, or assigns
the next counter value, records it, and pads the pool table. -/
theorem getTypeId_spec (h : Nat) (w : World Val) :
    (lookupType h w.typeMap = some (getTypeId h w).1 ∧ (getTypeId h w).2 = w) ∨
    (lookupType h w.typeMap = none ∧ (getTypeId h w).1 = w.typeCounter ∧
      (getTypeId h w).2 =
        { w with typeCounter := w.typeCounter + 1
                 typeMap := (h, w.typeCounter) :: w.typeMap
                 pools := if w.pools.length ≤ w.typeCounter then
                     listResize w.pools (w.typeCounter + 1) none
                   else w.pools }) := by
  cases hl : lookupType h w.typeMap with
  | some s =>
    left
    refine ⟨?_, ?_⟩ <;> simp [getTypeId, hl]
  | none =>
    right
    refine ⟨rfl, ?_, ?_⟩ <;> simp [getTypeId, hl]

theorem getTypeId_alive (h : Nat) (w : World Val) :
    ((getTypeId h w).2).alive = w.alive := by
  rcases getTypeId_spec h w with ⟨_, hw⟩ | ⟨_, _, hw⟩ <;> rw [hw]

theorem getTypeId_nextEntity (h : Nat) (w : World Val) :
    ((getTypeId h w).2).nextEntity = w.nextEntity := by
  rcases getTypeId_spec h w with ⟨_, hw⟩ | ⟨_, _, hw⟩ <;> rw [hw]

/-- Existing pool-table entries survive `getTypeId`; entries past the old
table are null. -/
theorem getTypeId_pools_frame (h : Nat) (w : World Val) :
    (∀ i, i < w.pools.length → ((getTypeId h w).2).pools[i]? = w.pools[i]?) ∧
    (∀ i, w.pools.length ≤ i → ((getTypeId h w).2).pools.getD i none = none) := by
  rcases getTypeId_spec h w with ⟨_, hw⟩ | ⟨_, _, hw⟩
  · rw [hw]
    refine ⟨fun i _ => rfl, fun i hi => ?_⟩
    simp [List.getD_eq_getElem?_getD, List.getElem?_eq_none hi]
  · rw [hw]
    dsimp only
    by_cases hc : w.pools.length ≤ w.typeCounter
    · rw [if_pos hc]
      refine ⟨fun i hi => ?_, fun i hi => ?_⟩
      · rw [getElem?_listResize, if_pos (by omega), if_pos hi]
      · rw [List.getD_eq_getElem?_getD, getElem?_listResize]
        by_cases h2 : i < w.typeCounter + 1
        · simp [if_pos h2, if_neg (by omega : ¬ i < w.pools.length)]
        · simp [if_neg h2]
    · rw [if_neg hc]
      refine ⟨fun i _ => rfl, fun i hi => ?_⟩
      simp [List.getD_eq_getElem?_getD, List.getElem?_eq_none hi]

theorem inv_init : Inv (World.init : World Val) := by
  refine ⟨?_, rfl, ?_, ?_⟩ <;> simp [World.init]

theorem getTypeId_lookup (h : Nat) (w : World Val) :
    lookupType h ((getTypeId h w).2).typeMap = some (getTypeId h w).1 := by
  rcases getTypeId_spec h w with ⟨hl, hw⟩ | ⟨hl, htid, hw⟩
  · rw [hw]; exact hl
  · rw [hw, htid]
    show (if h = h then some w.typeCounter else lookupType h w.typeMap) = _
    rw [if_pos rfl]

theorem getTypeId_lookup_mono {h2 s : Nat} (h : Nat) (w : World Val)
    (hs : lookupType h2 w.typeMap = some s) :
    lookupType h2 ((getTypeId h w).2).typeMap = some s := by
  rcases getTypeId_spec h w with ⟨_, hw⟩ | ⟨hl, _, hw⟩
  · rw [hw]; exact hs
  · rw [hw]
    have hne : h ≠ h2 := by
      intro hc
      subst hc
      rw [hl] at hs
      exact Option.noConfusion hs
    show (if h = h2 then some w.typeCounter else lookupType h2 w.typeMap) = _
    rw [if_neg hne]
    exact hs

theorem getTypeId_inv {w : World Val} (hw : Inv w) (h : Nat) : Inv (getTypeId h w).2 := by
  rcases getTypeId_spec h w with ⟨_, hweq⟩ | ⟨hl, _, hweq⟩
  · rw [hweq]; exact hw
  · rw [hweq]
    obtain ⟨hpool, hlen, hbound, hpair⟩ := hw
    have hc : w.pools.length ≤ w.typeCounter := le_of_eq hlen
    refine ⟨?_, ?_, ?_, ?_⟩
    · dsimp only
      rw [if_pos hc, listResize_of_length_le _ _ _ (by omega)]
      intro p hp q hq
      rcases List.mem_append.1 hp with hp | hp
      · exact hpool p hp q hq
      · have : p = none := List.eq_of_mem_replicate hp
        rw [this] at hq
        exact Option.noConfusion hq
    · dsimp only
      rw [if_pos hc, length_listResize]
    · intro pr hpr
      dsimp only
      rcases List.mem_cons.1 hpr with hpr | hpr
      · rw [hpr]; omega
      · have := hbound pr hpr; omega
    · dsimp only
      rw [List.pairwise_cons]
      refine ⟨fun b hb => ⟨?_, ?_⟩, hpair⟩
      · exact fun hc2 => (lookupType_eq_none.1 hl b hb) hc2.symm
      · have := hbound b hb; omega

/-- Under the invariant, a freshly assigned slot holds no pool. -/
theorem getTypeId_fresh_slot_none {w : World Val} (hw : Inv w) {h : Nat}
    (hl : lookupType h w.typeMap = none) :
    ((getTypeId h w).2).pools.getD (getTypeId h w).1 none = none := by
  rcases getTypeId_spec h w with ⟨hl2, _⟩ | ⟨_, htid, hweq⟩
  · rw [hl] at hl2; exact Option.noConfusion hl2
  · have hlen : w.pools.length = w.typeCounter := hw.2.1
    rw [hweq, htid]
    dsimp only
    rw [if_pos (le_of_eq hlen), List.getD_eq_getElem?_getD, getElem?_listResize]
    rw [if_pos (by omega), if_neg (by omega)]
    rfl

/-- Under the invariant, the slot returned by `getTypeId` is in range of the
resulting pool table. -/
theorem getTypeId_tid_lt {w : World Val} (hw : Inv w) (h : Nat) :
    (getTypeId h w).1 < ((getTypeId h w).2).pools.length := by
  rcases getTypeId_spec h w with ⟨hl, hweq⟩ | ⟨_, htid, hweq⟩
  · rw [hweq]
    rw [hw.2.1]
    exact lookupType_lt hw hl
  · have hlen : w.pools.length = w.typeCounter := hw.2.1
    rw [hweq, htid]
    dsimp only
    rw [if_pos (le_of_eq hlen), length_listResize]
    omega

/-- Resolving a slot leaves every per-type lookup state intact: a type is
unresolved in both worlds, freshly assigned with a null pool, or resolved to
the same slot with the same pool entry. -/
theorem getTypeId_lookupState {w : World Val} (hw : Inv w) (h h2 : Nat) :
    (lookupType h2 ((getTypeId h w).2).typeMap = none ∧
      lookupType h2 w.typeMap = none) ∨
    (∃ s, lookupType h2 ((getTypeId h w).2).typeMap = some s ∧
      ((getTypeId h w).2).pools.getD s none = none ∧
      lookupType h2 w.typeMap = none) ∨
    (∃ s, lookupType h2 ((getTypeId h w).2).typeMap = some s ∧
      lookupType h2 w.typeMap = some s ∧
      ((getTypeId h w).2).pools.getD s none = w.pools.getD s none) := by
  cases hs : lookupType h2 w.typeMap with
  | some s =>
    right; right
    refine ⟨s, getTypeId_lookup_mono h w hs, rfl, ?_⟩
    have hslt : s < w.pools.length := by
      rw [hw.2.1]; exact lookupType_lt hw hs
    rw [List.getD_eq_getElem?_getD, List.getD_eq_getElem?_getD,
      (getTypeId_pools_frame h w).1 s hslt]
  | none =>
    by_cases hh : h = h2
    · subst hh
      cases hl2 : lookupType h ((getTypeId h w).2).typeMap with
      | none =>
        left; exact ⟨rfl, rfl⟩
      | some s =>
        right; left
        refine ⟨s, rfl, ?_, rfl⟩
        have hls := getTypeId_lookup h w
        rw [hl2] at hls
        injection hls with hse
        rw [hse]
        exact getTypeId_fresh_slot_none hw hs
    · rcases getTypeId_spec h w with ⟨_, hweq⟩ | ⟨hl, _, hweq⟩
      · left
        rw [hweq]
        exact ⟨hs, rfl⟩
      · left
        rw [hweq]
        refine ⟨?_, rfl⟩
        show (if h = h2 then some w.typeCounter else lookupType h2 w.typeMap) = none
        rw [if_neg hh]
        exact hs

theorem regOnly_refl [Inhabited Val] (w : World Val) : RegOnly w w :=
  ⟨rfl, rfl, fun _ => rfl, fun _ _ => rfl, fun _ _ => rfl, fun _ _ => rfl⟩

theorem regOnly_trans [Inhabited Val] {w w2 w3 : World Val}
    (h1 : RegOnly w w2) (h2 : RegOnly w2 w3) : RegOnly w w3 := by
  obtain ⟨a1, n1, p1, q1, d1, o1⟩ := h1
  obtain ⟨a2, n2, p2, q2, d2, o2⟩ := h2
  exact ⟨a2.trans a1, n2.trans n1, fun h => (p2 h).trans (p1 h),
    fun h e => (q2 h e).trans (q1 h e), fun h e => (d2 h e).trans (d1 h e),
    fun h e => (o2 h e).trans (o1 h e)⟩

theorem getTypeId_regOnly [Inhabited Val] {w : World Val} (hw : Inv w) (h : Nat) :
    RegOnly w (getTypeId h w).2 := by
  refine ⟨getTypeId_alive h w, getTypeId_nextEntity h w, ?_, ?_, ?_, ?_⟩
  · intro h2
    rcases getTypeId_lookupState hw h h2 with ⟨l2, l1⟩ | ⟨s, l2, e2, l1⟩ | ⟨s, l2, l1, e2⟩
    · simp only [poolExists, l1, l2]
    · simp only [poolExists, l1, l2, e2]
      rfl
    · simp only [poolExists, l1, l2, e2]
  · intro h2 e
    rcases getTypeId_lookupState hw h h2 with ⟨l2, l1⟩ | ⟨s, l2, e2, l1⟩ | ⟨s, l2, l1, e2⟩
    · simp only [presentB, l1, l2]
    · simp only [presentB, l1, l2, e2]
    · simp only [presentB, l1, l2, e2]
  · intro h2 e
    rcases getTypeId_lookupState hw h h2 with ⟨l2, l1⟩ | ⟨s, l2, e2, l1⟩ | ⟨s, l2, l1, e2⟩
    · simp only [dataValB, l1, l2]
    · simp only [dataValB, l1, l2, e2]
    · simp only [dataValB, l1, l2, e2]
  · intro h2 e
    rcases getTypeId_lookupState hw h h2 with ⟨l2, l1⟩ | ⟨s, l2, e2, l1⟩ | ⟨s, l2, l1, e2⟩
    · simp only [observe, l1, l2]
    · simp only [observe, l1, l2, e2]
    · simp only [observe, l1, l2, e2]

/-! ### `ensureSize`, `ensureEntity`, `ensurePool` -/

theorem ensureSize_lens [Inhabited Val] {p : Pool Val} {n : Nat}
    (hd : p.data.length ≤ n) (hmm : p.mask.length = p.data.length) :
    ((p.ensureSize n).data.length = n ∧ (p.ensureSize n).mask.length = n) := by
  unfold Pool.ensureSize
  split_ifs with hc
  · simp [length_listResize]
  · constructor <;> omega

theorem ensureEntity_fields [Inhabited Val] (w : World Val) (e : Nat) :
    (w.ensureEntity e).nextEntity = w.nextEntity ∧
    (w.ensureEntity e).typeMap = w.typeMap ∧
    (w.ensureEntity e).typeCounter = w.typeCounter ∧
    (w.ensureEntity e).pools.length = w.pools.length := by
  unfold World.ensureEntity
  split_ifs <;> simp

theorem ensureEntity_alive_length [Inhabited Val] (w : World Val) (e : Nat) :
    (w.ensureEntity e).alive.length = max w.alive.length (e + 1) := by
  unfold World.ensureEntity
  split_ifs with hc
  · simp only [length_listResize]
    omega
  · omega

theorem ensureEntity_alive_getD_lt [Inhabited Val] {w : World Val} {j : Nat}
    (hj : j < w.alive.length) (e : Nat) :
    (w.ensureEntity e).alive.getD j false = w.alive.getD j false := by
  unfold World.ensureEntity
  split_ifs with hc
  · simp only
    rw [getD_listResize, if_pos (by omega), if_pos hj]
  · rfl

theorem ensureEntity_inv [Inhabited Val] {w : World Val} (hw : Inv w) (e : Nat) :
    Inv (w.ensureEntity e) := by
  obtain ⟨hpool, hlen, hbound, hpair⟩ := hw
  unfold World.ensureEntity
  split_ifs with hc
  · refine ⟨?_, ?_, hbound, hpair⟩
    · intro p hp q hq
      dsimp only at hp ⊢
      rw [length_listResize]
      obtain ⟨p0, hp0, hmap⟩ := List.mem_map.1 hp
      rw [← hmap] at hq
      obtain ⟨q0, hq0, hfq⟩ := Option.map_eq_some'.1 hq
      obtain ⟨hq0d, hq0m⟩ := hpool p0 hp0 q0 hq0
      have := ensureSize_lens (p := q0) (n := e + 1)
        (by omega) (by omega)
      rw [hfq] at this
      exact this
    · dsimp only
      rw [List.length_map]
      exact hlen
  · exact ⟨hpool, hlen, hbound, hpair⟩

/-- The second component of `ensurePool` only rewrites the pool table. -/
theorem ensurePool_snd_fields [Inhabited Val] (w : World Val) (tid : Nat) :
    ((w.ensurePool tid).2).alive = w.alive ∧
    ((w.ensurePool tid).2).nextEntity = w.nextEntity ∧
    ((w.ensurePool tid).2).typeMap = w.typeMap ∧
    ((w.ensurePool tid).2).typeCounter = w.typeCounter ∧
    ((w.ensurePool tid).2).pools = w.pools.set tid (some (w.ensurePool tid).1) :=
  ⟨rfl, rfl, rfl, rfl, rfl⟩

theorem ensurePool_lens [Inhabited Val] {w : World Val} (hw : Inv w) (tid : Nat) :
    ((w.ensurePool tid).1).data.length = w.alive.length ∧
    ((w.ensurePool tid).1).mask.length = w.alive.length := by
  unfold World.ensurePool
  dsimp only
  cases hm : w.pools.getD tid none with
  | none =>
    exact ensureSize_lens (by simp) (by simp)
  | some q =>
    obtain ⟨hqd, hqm⟩ := hw.1 (some q) (mem_of_getD_eq_some hm) q rfl
    refine ensureSize_lens ?_ ?_ <;> simp [hqd, hqm]

theorem ensurePool_inv [Inhabited Val] {w : World Val} (hw : Inv w) (tid : Nat) :
    Inv (w.ensurePool tid).2 := by
  have hlens := ensurePool_lens hw tid
  obtain ⟨hpool, hlen, hbound, hpair⟩ := hw
  refine ⟨?_, ?_, hbound, hpair⟩
  · intro p hp q hq
    show q.data.length = w.alive.length ∧ q.mask.length = w.alive.length
    rcases List.mem_or_eq_of_mem_set hp with hp | hp
    · exact hpool p hp q hq
    · rw [hp] at hq
      injection hq with hq
      rw [← hq]
      exact hlens
  · show (w.pools.set tid _).length = w.typeCounter
    rw [List.length_set]
    exact hlen

/-! ### Characterizations and frames of the five operations -/

theorem create_entity_eq [Inhabited Val] (w : World Val) :
    create_entity w = (w.nextEntity,
      { ({ w with nextEntity := (w.nextEntity + 1) % 2 ^ 32 } : World Val).ensureEntity
          w.nextEntity with
        alive := (({ w with nextEntity := (w.nextEntity + 1) % 2 ^ 32 } : World Val).ensureEntity
          w.nextEntity).alive.set w.nextEntity true }) := rfl

theorem create_entity_fst [Inhabited Val] (w : World Val) :
    (create_entity w).1 = w.nextEntity := rfl

theorem create_entity_fields [Inhabited Val] (w : World Val) :
    ((create_entity w).2).typeMap = w.typeMap ∧
    ((create_entity w).2).typeCounter = w.typeCounter ∧
    ((create_entity w).2).nextEntity = (w.nextEntity + 1) % 2 ^ 32 ∧
    ((create_entity w).2).alive.length = max w.alive.length (w.nextEntity + 1) ∧
    ((create_entity w).2).pools.length = w.pools.length := by
  rw [create_entity_eq]
  dsimp only
  refine ⟨?_, ?_, ?_, ?_, ?_⟩
  · exact (ensureEntity_fields _ _).2.1
  · exact (ensureEntity_fields _ _).2.2.1
  · exact (ensureEntity_fields _ _).1
  · rw [List.length_set]
    exact ensureEntity_alive_length _ _
  · exact (ensureEntity_fields _ _).2.2.2

theorem create_entity_inv [Inhabited Val] {w : World Val} (hw : Inv w) :
    Inv (create_entity w).2 := by
  rw [create_entity_eq]
  dsimp only
  have hw1 : Inv ({ w with nextEntity := (w.nextEntity + 1) % 2 ^ 32 } : World Val) := hw
  have hw2 := ensureEntity_inv hw1 w.nextEntity
  obtain ⟨hpool, hlen, hbound, hpair⟩ := hw2
  refine ⟨?_, hlen, hbound, hpair⟩
  intro p hp q hq
  rw [List.length_set]
  exact hpool p hp q hq

theorem wrap_max_min (a : Nat) :
    max (min a (2 ^ 32)) ((a % 2 ^ 32) + 1) = min (a + 1) (2 ^ 32) := by omega

theorem wrap_mod_succ (a : Nat) :
    ((a % 2 ^ 32) + 1) % 2 ^ 32 = (a + 1) % 2 ^ 32 := by omega

theorem create_entity_cinv [Inhabited Val] {w : World Val} {n : Nat} (hc : CInv w n) :
    CInv (create_entity w).2 (n + 1) := by
  obtain ⟨ha, hn⟩ := hc
  obtain ⟨_, _, hnext, halen, _⟩ := create_entity_fields w
  refine ⟨?_, ?_⟩
  · rw [halen, ha, hn]
    exact wrap_max_min n
  · rw [hnext, hn]
    exact wrap_mod_succ n

theorem create_alive_getD_ne [Inhabited Val] {w : World Val} {j : Nat}
    (hj : j < w.alive.length) (hne : j ≠ w.nextEntity) :
    ((create_entity w).2).alive.getD j false = w.alive.getD j false := by
  rw [create_entity_eq]
  dsimp only
  rw [getD_set_ne _ _ _ _ _ (fun hc => hne hc.symm)]
  exact ensureEntity_alive_getD_lt
    (w := { w with nextEntity := (w.nextEntity + 1) % 2 ^ 32 }) hj w.nextEntity

theorem create_alive_getD_self [Inhabited Val] (w : World Val) :
    ((create_entity w).2).alive.getD w.nextEntity false = true := by
  rw [create_entity_eq]
  dsimp only
  apply getD_set_self
  rw [ensureEntity_alive_length]
  omega

theorem destroy_entity_fields (w : World Val) (e : Nat) :
    (destroy_entity w e).pools = w.pools ∧
    (destroy_entity w e).typeMap = w.typeMap ∧
    (destroy_entity w e).typeCounter = w.typeCounter ∧
    (destroy_entity w e).nextEntity = w.nextEntity ∧
    (destroy_entity w e).alive.length = w.alive.length := by
  unfold destroy_entity
  split_ifs <;> simp

theorem destroy_alive_getD_ne {w : World Val} {j e : Nat} (hne : j ≠ e) :
    (destroy_entity w e).alive.getD j false = w.alive.getD j false := by
  unfold destroy_entity
  split_ifs with hc
  · exact getD_set_ne _ _ _ _ _ (fun h2 => hne h2.symm)
  · rfl

theorem destroy_alive_getD_self (w : World Val) (e : Nat) :
    (destroy_entity w e).alive.getD e false = false := by
  unfold destroy_entity
  split_ifs with hc
  · exact getD_set_self _ _ _ _ hc
  · rw [List.getD_eq_getElem?_getD, List.getElem?_eq_none (by omega)]
    rfl

theorem destroy_entity_inv {w : World Val} (hw : Inv w) (e : Nat) :
    Inv (destroy_entity w e) := by
  obtain ⟨hpool, hlen, hbound, hpair⟩ := hw
  unfold destroy_entity
  split_ifs with hc
  · refine ⟨?_, hlen, hbound, hpair⟩
    intro p hp q hq
    rw [List.length_set]
    exact hpool p hp q hq
  · exact ⟨hpool, hlen, hbound, hpair⟩

theorem add_component_err [Inhabited Val] {w : World Val} {e : Nat} (h : Nat) (v : Val)
    (hc : w.alive.length ≤ e ∨ w.alive.getD e false = false) :
    add_component h e v w = (Status.ERROR, w) := by
  unfold add_component
  rw [if_pos hc]

theorem add_component_ok_spec [Inhabited Val] {w : World Val} {e : Nat} (h : Nat) (v : Val)
    (hc : ¬(w.alive.length ≤ e ∨ w.alive.getD e false = false)) :
    add_component h e v w =
      (Status.OK,
        { alive := ((getTypeId h w).2).alive
          nextEntity := ((getTypeId h w).2).nextEntity
          pools := ((getTypeId h w).2).pools.set (getTypeId h w).1
            (some { data := ((((getTypeId h w).2).ensurePool (getTypeId h w).1).1).data.set e v
                    mask := ((((getTypeId h w).2).ensurePool (getTypeId h w).1).1).mask.set e true })
          typeMap := ((getTypeId h w).2).typeMap
          typeCounter := ((getTypeId h w).2).typeCounter }) := by
  unfold add_component
  rw [if_neg hc]
  show (Status.OK, ({ (((getTypeId h w).2).ensurePool (getTypeId h w).1).2 with
      pools := (((getTypeId h w).2).pools.set (getTypeId h w).1
          (some (((getTypeId h w).2).ensurePool (getTypeId h w).1).1)).set (getTypeId h w).1
        (some { data := ((((getTypeId h w).2).ensurePool (getTypeId h w).1).1).data.set e v
                mask := ((((getTypeId h w).2).ensurePool (getTypeId h w).1).1).mask.set e true }) } : World Val)) = _
  rw [List.set_set]
  rfl

theorem add_component_status [Inhabited Val] (h e : Nat) (v : Val) (w : World Val) :
    (add_component h e v w).1 = Status.ERROR ↔
      (w.alive.length ≤ e ∨ w.alive.getD e false = false) := by
  by_cases hc : w.alive.length ≤ e ∨ w.alive.getD e false = false
  · rw [add_component_err h v hc]
    exact iff_of_true rfl hc
  · rw [add_component_ok_spec h v hc]
    exact iff_of_false (fun hcc => Status.noConfusion hcc) hc

theorem add_component_frame [Inhabited Val] (h e : Nat) (v : Val) (w : World Val) :
    ((add_component h e v w).2).alive = w.alive ∧
    ((add_component h e v w).2).nextEntity = w.nextEntity := by
  by_cases hc : w.alive.length ≤ e ∨ w.alive.getD e false = false
  · rw [add_component_err h v hc]
    exact ⟨rfl, rfl⟩
  · rw [add_component_ok_spec h v hc]
    exact ⟨getTypeId_alive h w, getTypeId_nextEntity h w⟩

theorem add_component_inv [Inhabited Val] {w : World Val} (hw : Inv w)
    (h e : Nat) (v : Val) : Inv (add_component h e v w).2 := by
  by_cases hc : w.alive.length ≤ e ∨ w.alive.getD e false = false
  · rw [add_component_err h v hc]
    exact hw
  · rw [add_component_ok_spec h v hc]
    have hw1 := getTypeId_inv hw h
    obtain ⟨hd, hm⟩ := ensurePool_lens hw1 (getTypeId h w).1
    obtain ⟨hpool, hlen, hbound, hpair⟩ := hw1
    refine ⟨?_, ?_, hbound, hpair⟩
    · intro p hp2 q hq
      show q.data.length = ((getTypeId h w).2).alive.length ∧
        q.mask.length = ((getTypeId h w).2).alive.length
      rcases List.mem_or_eq_of_mem_set hp2 with hp2 | hp2
      · exact hpool p hp2 q hq
      · rw [hp2] at hq
        injection hq with hq
        rw [← hq]
        dsimp only
        rw [List.length_set, List.length_set]
        exact ⟨hd, hm⟩
    · show (List.set _ _ _).length = _
      rw [List.length_set]
      exact hlen

theorem remove_component_spec (h e : Nat) (w : World Val) :
    (((getTypeId h w).2).pools.getD (getTypeId h w).1 none = none ∧
      remove_component h e w = (Status.ERROR, (getTypeId h w).2)) ∨
    (∃ pool, ((getTypeId h w).2).pools.getD (getTypeId h w).1 none = some pool ∧
      remove_component h e w = (Status.OK,
        { alive := ((getTypeId h w).2).alive
          nextEntity := ((getTypeId h w).2).nextEntity
          pools := ((getTypeId h w).2).pools.set (getTypeId h w).1
            (some { data := pool.data
                    mask := if e < pool.mask.length then pool.mask.set e false
                            else pool.mask })
          typeMap := ((getTypeId h w).2).typeMap
          typeCounter := ((getTypeId h w).2).typeCounter })) := by
  cases hm : ((getTypeId h w).2).pools.getD (getTypeId h w).1 none with
  | none =>
    left
    refine ⟨rfl, ?_⟩
    unfold remove_component
    dsimp only
    rw [hm]
  | some pool =>
    right
    refine ⟨pool, rfl, ?_⟩
    unfold remove_component
    dsimp only
    rw [hm]

theorem remove_component_frame (h e : Nat) (w : World Val) :
    ((remove_component h e w).2).alive = w.alive ∧
    ((remove_component h e w).2).nextEntity = w.nextEntity := by
  rcases remove_component_spec h e w with ⟨_, hr⟩ | ⟨pool, _, hr⟩ <;>
    rw [hr] <;> exact ⟨getTypeId_alive h w, getTypeId_nextEntity h w⟩

theorem remove_component_inv {w : World Val} (hw : Inv w) (h e : Nat) :
    Inv (remove_component h e w).2 := by
  have hw1 := getTypeId_inv hw h
  rcases remove_component_spec h e w with ⟨_, hr⟩ | ⟨pool, hm, hr⟩
  · rw [hr]
    exact hw1
  · rw [hr]
    obtain ⟨hpool, hlen, hbound, hpair⟩ := hw1
    refine ⟨?_, ?_, hbound, hpair⟩
    · intro p hp q hq
      show q.data.length = ((getTypeId h w).2).alive.length ∧
        q.mask.length = ((getTypeId h w).2).alive.length
      rcases List.mem_or_eq_of_mem_set hp with hp | hp
      · exact hpool p hp q hq
      · rw [hp] at hq
        injection hq with hq
        rw [← hq]
        dsimp only
        obtain ⟨hqd, hqm⟩ := hpool _ (mem_of_getD_eq_some hm) pool rfl
        constructor
        · exact hqd
        · split_ifs with hc
          · rw [List.length_set]
            exact hqm
          · exact hqm
    · show (List.set _ _ _).length = _
      rw [List.length_set]
      exact hlen

theorem get_component_world [Inhabited Val] (h e : Nat) (w : World Val) :
    (get_component h e w).2 = (getTypeId h w).2 := by
  unfold get_component
  dsimp only
  cases hm : ((getTypeId h w).2).pools.getD (getTypeId h w).1 none with
  | none => rfl
  | some pool =>
    dsimp only
    split_ifs <;> rfl

theorem get_component_fst [Inhabited Val] (h e : Nat) (w : World Val) :
    (get_component h e w).1 = observe (getTypeId h w).2 h e := by
  unfold get_component observe
  rw [getTypeId_lookup h w]
  dsimp only
  cases hm : ((getTypeId h w).2).pools.getD (getTypeId h w).1 none with
  | none => rfl
  | some pool =>
    dsimp only
    split_ifs <;> rfl

theorem get_component_inv [Inhabited Val] {w : World Val} (hw : Inv w) (h e : Nat) :
    Inv (get_component h e w).2 := by
  rw [get_component_world]
  exact getTypeId_inv hw h

/-! ### `getTypeIds` and `query` -/

theorem getTypeIds_frame : ∀ (hs : List Nat) (w : World Val),
    ((getTypeIds hs w).2).alive = w.alive ∧ ((getTypeIds hs w).2).nextEntity = w.nextEntity
  | [], _ => ⟨rfl, rfl⟩
  | h :: t, w => by
    unfold getTypeIds
    dsimp only
    obtain ⟨ha, hn⟩ := getTypeIds_frame t (getTypeId h w).2
    exact ⟨ha.trans (getTypeId_alive h w), hn.trans (getTypeId_nextEntity h w)⟩

theorem getTypeIds_lookup_mono : ∀ (hs : List Nat) (w : World Val) {h2 s : Nat},
    lookupType h2 w.typeMap = some s →
    lookupType h2 ((getTypeIds hs w).2).typeMap = some s
  | [], _, _, _, hl => hl
  | h :: t, w, _, _, hl => by
    unfold getTypeIds
    dsimp only
    exact getTypeIds_lookup_mono t _ (getTypeId_lookup_mono h w hl)

theorem getTypeIds_inv : ∀ (hs : List Nat) {w : World Val}, Inv w → Inv (getTypeIds hs w).2
  | [], _, hw => hw
  | h :: t, w, hw => by
    unfold getTypeIds
    dsimp only
    exact getTypeIds_inv t (getTypeId_inv hw h)

theorem getTypeIds_regOnly [Inhabited Val] : ∀ (hs : List Nat) {w : World Val}, Inv w →
    RegOnly w (getTypeIds hs w).2
  | [], w, _ => regOnly_refl w
  | h :: t, w, hw => by
    unfold getTypeIds
    dsimp only
    exact regOnly_trans (getTypeId_regOnly hw h) (getTypeIds_regOnly t (getTypeId_inv hw h))

theorem getTypeIds_tidsFor : ∀ (hs : List Nat) {w : World Val}, Inv w →
    TidsFor (getTypeIds hs w).2 hs (getTypeIds hs w).1
  | [], _, _ => List.Forall₂.nil
  | h :: t, w, hw => by
    unfold getTypeIds
    dsimp only
    refine List.Forall₂.cons ?_ (getTypeIds_tidsFor t (getTypeId_inv hw h))
    exact getTypeIds_lookup_mono t _ (getTypeId_lookup h w)

theorem query_world [Inhabited Val] (hs : List Nat) (w : World Val) :
    (query hs w).2 = (getTypeIds hs w).2 := rfl

theorem query_inv [Inhabited Val] {w : World Val} (hw : Inv w) (hs : List Nat) :
    Inv (query hs w).2 := getTypeIds_inv hs hw

/-! ### Invariant preservation along whole traces -/

theorem cinv_of_frame {w w2 : World Val} {n : Nat} (hc : CInv w n)
    (ha : w2.alive.length = w.alive.length) (hn : w2.nextEntity = w.nextEntity) :
    CInv w2 n := ⟨ha.trans hc.1, hn.trans hc.2⟩

theorem op_inv [Inhabited Val] {w : World Val} (hw : Inv w) :
    ∀ op : Op Val, Inv (op.apply w)
  | .create => create_entity_inv hw
  | .destroy e => destroy_entity_inv hw e
  | .add h e v => add_component_inv hw h e v
  | .remove h e => remove_component_inv hw h e
  | .get h e => get_component_inv hw h e
  | .queryOp hs => getTypeIds_inv hs hw

theorem reached_inv [Inhabited Val] {w : World Val} {n : Nat} (hr : Reached w n) :
    Inv w ∧ CInv w n := by
  induction hr with
  | init =>
    refine ⟨inv_init, ?_, ?_⟩ <;> simp [World.init]
  | create hr ih => exact ⟨create_entity_inv ih.1, create_entity_cinv ih.2⟩
  | destroy e hr ih =>
    exact ⟨destroy_entity_inv ih.1 e,
      cinv_of_frame ih.2 (destroy_entity_fields _ e).2.2.2.2 (destroy_entity_fields _ e).2.2.2.1⟩
  | add h e v hr ih =>
    exact ⟨add_component_inv ih.1 h e v,
      cinv_of_frame ih.2 (congrArg List.length (add_component_frame h e v _).1)
        (add_component_frame h e v _).2⟩
  | remove h e hr ih =>
    exact ⟨remove_component_inv ih.1 h e,
      cinv_of_frame ih.2 (congrArg List.length (remove_component_frame h e _).1)
        (remove_component_frame h e _).2⟩
  | get h e hr ih =>
    refine ⟨get_component_inv ih.1 h e, ?_⟩
    rw [get_component_world]
    exact cinv_of_frame ih.2 (congrArg List.length (getTypeId_alive h _))
      (getTypeId_nextEntity h _)
  | queryOp hs hr ih =>
    refine ⟨getTypeIds_inv hs ih.1, ?_⟩
    exact cinv_of_frame ih.2 (congrArg List.length (getTypeIds_frame hs _).1)
      (getTypeIds_frame hs _).2

/-! ### Pool storage never shrinks -/

theorem getD_eq_some_lt {l : List (Option β)} {i : Nat} {p : β}
    (hp : l.getD i none = some p) : i < l.length := by
  by_contra hc
  rw [List.getD_eq_getElem?_getD, List.getElem?_eq_none (by omega)] at hp
  exact Option.noConfusion hp

theorem grows_refl (w : World Val) : Grows w w :=
  fun _ p hp => ⟨p, hp, le_refl _, le_refl _⟩

theorem grows_trans {w1 w2 w3 : World Val} (h1 : Grows w1 w2) (h2 : Grows w2 w3) :
    Grows w1 w3 := by
  intro i p hp
  obtain ⟨q, hq, hd, hm⟩ := h1 i p hp
  obtain ⟨r, hr, hd2, hm2⟩ := h2 i q hq
  exact ⟨r, hr, le_trans hd hd2, le_trans hm hm2⟩

theorem grows_of_pools_eq {w w2 : World Val} (hp : w2.pools = w.pools) : Grows w w2 := by
  intro i p hpe
  exact ⟨p, by rw [hp]; exact hpe, le_refl _, le_refl _⟩

theorem getTypeId_grows (h : Nat) (w : World Val) : Grows w (getTypeId h w).2 := by
  intro i p hp
  have hi := getD_eq_some_lt hp
  refine ⟨p, ?_, le_refl _, le_refl _⟩
  rw [List.getD_eq_getElem?_getD, (getTypeId_pools_frame h w).1 i hi,
    ← List.getD_eq_getElem?_getD]
  exact hp

theorem getTypeIds_grows : ∀ (hs : List Nat) (w : World Val), Grows w (getTypeIds hs w).2
  | [], w => grows_refl w
  | h :: t, w => by
    unfold getTypeIds
    dsimp only
    exact grows_trans (getTypeId_grows h w) (getTypeIds_grows t (getTypeId h w).2)

theorem set_grows {l : List (Option (Pool Val))} {tid : Nat} {p1 : Pool Val}
    (hq : ∀ q : Pool Val, l.getD tid none = some q →
      q.data.length ≤ p1.data.length ∧ q.mask.length ≤ p1.mask.length) :
    ∀ i p, l.getD i none = some p →
      ∃ q2, (l.set tid (some p1)).getD i none = some q2 ∧
        p.data.length ≤ q2.data.length ∧ p.mask.length ≤ q2.mask.length := by
  intro i p hp
  have hi := getD_eq_some_lt hp
  by_cases hit : tid = i
  · subst hit
    obtain ⟨hd, hm⟩ := hq p hp
    refine ⟨p1, ?_, hd, hm⟩
    rw [List.getD_eq_getElem?_getD, List.getElem?_set_self hi]
    rfl
  · refine ⟨p, ?_, le_refl _, le_refl _⟩
    rw [List.getD_eq_getElem?_getD, List.getElem?_set_ne hit, ← List.getD_eq_getElem?_getD]
    exact hp

theorem ensureEntity_grows [Inhabited Val] {w : World Val} (hw : Inv w) (e : Nat) :
    Grows w (w.ensureEntity e) := by
  unfold World.ensureEntity
  split_ifs with hc
  · intro i p hp
    have hi := getD_eq_some_lt hp
    obtain ⟨hd, hm⟩ := hw.1 (some p) (mem_of_getD_eq_some hp) p rfl
    refine ⟨p.ensureSize (e + 1), ?_, ?_, ?_⟩
    · show (List.map _ w.pools).getD i none = _
      rw [List.getD_eq_getElem?_getD, List.getElem?_map]
      rw [List.getD_eq_getElem?_getD] at hp
      cases hg : w.pools[i]? with
      | none => rw [hg] at hp; exact absurd hp (by simp)
      | some o =>
        rw [hg] at hp
        simp only [Option.getD_some] at hp
        rw [hp]
        rfl
    · obtain ⟨h1, h2⟩ := ensureSize_lens (p := p) (n := e + 1) (by omega) (by omega)
      omega
    · obtain ⟨h1, h2⟩ := ensureSize_lens (p := p) (n := e + 1) (by omega) (by omega)
      omega
  · exact grows_refl w

theorem create_entity_grows [Inhabited Val] {w : World Val} (hw : Inv w) :
    Grows w (create_entity w).2 := by
  rw [create_entity_eq]
  dsimp only
  have h1 : Grows w (({ w with nextEntity := (w.nextEntity + 1) % 2 ^ 32 } : World Val).ensureEntity
      w.nextEntity) :=
    ensureEntity_grows (w := { w with nextEntity := (w.nextEntity + 1) % 2 ^ 32 }) hw w.nextEntity
  intro i p hp
  exact h1 i p hp

theorem op_grows [Inhabited Val] {w : World Val} (hw : Inv w) :
    ∀ op : Op Val, Grows w (op.apply w)
  | .create => create_entity_grows hw
  | .destroy e => grows_of_pools_eq (destroy_entity_fields w e).1
  | .add h e v => by
    show Grows w (add_component h e v w).2
    by_cases hc : w.alive.length ≤ e ∨ w.alive.getD e false = false
    · rw [add_component_err h v hc]
      exact grows_refl w
    · rw [add_component_ok_spec h v hc]
      refine grows_trans (getTypeId_grows h w) ?_
      intro i p hp
      refine set_grows ?_ i p hp
      intro q hq
      have hw1 := getTypeId_inv hw h
      obtain ⟨hqd, hqm⟩ := hw1.1 (some q) (mem_of_getD_eq_some hq) q rfl
      obtain ⟨hpd, hpm⟩ := ensurePool_lens hw1 (getTypeId h w).1
      dsimp only
      rw [List.length_set, List.length_set]
      omega
  | .remove h e => by
    show Grows w (remove_component h e w).2
    rcases remove_component_spec h e w with ⟨_, hr⟩ | ⟨pool, hm, hr⟩
    · rw [hr]
      exact getTypeId_grows h w
    · rw [hr]
      refine grows_trans (getTypeId_grows h w) ?_
      intro i p hp
      refine set_grows ?_ i p hp
      intro q hq
      rw [hm] at hq
      injection hq with hq
      subst hq
      dsimp only
      constructor
      · exact le_refl _
      · split_ifs with hc2
        · rw [List.length_set]
        · exact le_refl _
  | .get h e => by
    show Grows w (get_component h e w).2
    rw [get_component_world]
    exact getTypeId_grows h w
  | .queryOp hs => getTypeIds_grows hs w

/-! ### The `query` scan versus its specification -/

theorem presentB_eq {w : World Val} {h tid e : Nat} (hl : lookupType h w.typeMap = some tid)
    {pl : Pool Val} (hm : w.pools.getD tid none = some pl) :
    presentB w h e = (decide (e < pl.mask.length) && pl.mask.getD e false) := by
  simp only [presentB, hl, hm]

theorem dataValB_eq [Inhabited Val] {w : World Val} {h tid e : Nat}
    (hl : lookupType h w.typeMap = some tid) {pl : Pool Val}
    (hm : w.pools.getD tid none = some pl) :
    dataValB w h e = pl.data.getD e default := by
  simp only [dataValB, hl, hm]

theorem aliveB_lt {w : World Val} {e : Nat} (ha : aliveB w e = true) :
    e < w.alive.length := by
  simp only [aliveB, Bool.and_eq_true, decide_eq_true_eq] at ha
  exact ha.1

theorem probe_spec [Inhabited Val] {w : World Val} (_hw : Inv w) :
    ∀ {hs tids : List Nat}, TidsFor w hs tids → ∀ {e : Nat} {r : Option (List Val)},
      probe w e tids = some r →
      (hs.all (fun h => presentB w h e) = true ∧
        r = some (hs.map (fun h => dataValB w h e))) ∨
      (hs.all (fun h => presentB w h e) = false ∧ r = none) := by
  intro hs tids htf
  induction htf with
  | nil =>
    intro e r hr
    left
    injection hr with hr
    exact ⟨rfl, hr.symm⟩
  | @cons h tid hs2 tids2 hhead htail ih =>
    intro e r hr
    unfold probe at hr
    cases hm : w.pools.getD tid none with
    | none =>
      rw [hm] at hr
      exact absurd hr (by simp)
    | some pl =>
      rw [hm] at hr
      dsimp only at hr
      have hpres := presentB_eq hhead hm (e := e)
      by_cases hcond : e < pl.mask.length ∧ pl.mask.getD e false = true
      · rw [if_pos hcond] at hr
        have hptrue : presentB w h e = true := by
          rw [hpres, hcond.2, Bool.and_true]
          exact decide_eq_true hcond.1
        by_cases hdc : e < pl.data.length
        · rw [if_pos hdc] at hr
          cases hpr : probe w e tids2 with
          | none =>
            rw [hpr] at hr
            exact absurd hr (by simp)
          | some r2 =>
            rw [hpr] at hr
            injection hr with hr
            rcases ih hpr with ⟨hall, hr2⟩ | ⟨hall, hr2⟩
            · left
              constructor
              · simp [List.all_cons, hptrue, hall]
              · rw [← hr, hr2, Option.map_some', List.map_cons, dataValB_eq hhead hm]
            · right
              constructor
              · simp [List.all_cons, hall]
              · rw [← hr, hr2]
                rfl
        · rw [if_neg hdc] at hr
          exact absurd hr (by simp)
      · rw [if_neg hcond] at hr
        cases hpr : probe w e tids2 with
        | none =>
          rw [hpr] at hr
          exact absurd hr (by simp)
        | some r2 =>
          rw [hpr] at hr
          injection hr with hr
          right
          have hpfalse : presentB w h e = false := by
            rcases Decidable.not_and_iff_or_not.1 hcond with hc | hc
            · rw [hpres, decide_eq_false hc, Bool.false_and]
            · rw [hpres, Bool.eq_false_iff.2 hc, Bool.and_false]
          constructor
          · simp [List.all_cons, hpfalse]
          · rw [← hr]

theorem probe_isSome [Inhabited Val] {w : World Val} (hw : Inv w) :
    ∀ {hs tids : List Nat}, TidsFor w hs tids → (∀ h ∈ hs, poolExists w h = true) →
      ∀ {e : Nat}, e < w.alive.length → (probe w e tids).isSome = true := by
  intro hs tids htf
  induction htf with
  | nil =>
    intro _ e _
    rfl
  | @cons h tid hs2 tids2 hhead htail ih =>
    intro hex e he
    have hpe : poolExists w h = true := hex h (List.mem_cons_self _ _)
    simp only [poolExists, hhead] at hpe
    cases hm : w.pools.getD tid none with
    | none => rw [hm] at hpe; exact absurd hpe (by simp)
    | some pl =>
      have hex2 : ∀ h2 ∈ hs2, poolExists w h2 = true :=
        fun h2 hh2 => hex h2 (List.mem_cons_of_mem _ hh2)
      unfold probe
      rw [hm]
      dsimp only
      obtain ⟨hpd, hpm⟩ := hw.1 (some pl) (mem_of_getD_eq_some hm) pl rfl
      have hrec := ih hex2 he
      by_cases hcond : e < pl.mask.length ∧ pl.mask.getD e false = true
      · rw [if_pos hcond, if_pos (by omega : e < pl.data.length)]
        cases hpr2 : probe w e tids2 with
        | none => rw [hpr2] at hrec; exact absurd hrec (by simp)
        | some r2 => rfl
      · rw [if_neg hcond]
        cases hpr2 : probe w e tids2 with
        | none => rw [hpr2] at hrec; exact absurd hrec (by simp)
        | some r2 => rfl

theorem queryLoop_spec [Inhabited Val] {w : World Val} (hw : Inv w) {hs tids : List Nat}
    (htf : TidsFor w hs tids) :
    ∀ {es : List Nat} {L : List (Nat × List Val)}, queryLoop w tids es = some L →
      L = (es.filter (fun e => aliveB w e && hs.all (fun h => presentB w h e))).map
        (fun e => (e, hs.map (fun h => dataValB w h e))) := by
  intro es
  induction es with
  | nil =>
    intro L hL
    injection hL with hL
    rw [← hL]
    rfl
  | cons e es ih =>
    intro L hL
    unfold queryLoop at hL
    rw [List.filter_cons]
    by_cases ha : aliveB w e = true
    · rw [if_pos ha] at hL
      cases hpr : probe w e tids with
      | none =>
        rw [hpr] at hL
        exact absurd hL (by simp)
      | some r =>
        rw [hpr] at hL
        rcases probe_spec hw htf hpr with ⟨hall, hr⟩ | ⟨hall, hr⟩
        · subst hr
          cases hql : queryLoop w tids es with
          | none =>
            rw [hql] at hL
            exact absurd hL (by simp)
          | some L2 =>
            rw [hql] at hL
            injection hL with hL
            rw [← hL, ih hql]
            rw [if_pos (by simp [ha, hall])]
            rfl
        · subst hr
          rw [if_neg (by simp [hall])]
          exact ih hL
    · rw [if_neg ha] at hL
      rw [if_neg (by simp [Bool.eq_false_iff.2 ha])]
      exact ih hL

theorem queryLoop_isSome [Inhabited Val] {w : World Val} (hw : Inv w) {hs tids : List Nat}
    (htf : TidsFor w hs tids) (hex : ∀ h ∈ hs, poolExists w h = true) :
    ∀ es : List Nat, ((queryLoop w tids es).isSome) = true
  | [] => rfl
  | e :: es => by
    unfold queryLoop
    by_cases ha : aliveB w e = true
    · rw [if_pos ha]
      cases hpr : probe w e tids with
      | none =>
        have := probe_isSome hw htf hex (aliveB_lt ha)
        rw [hpr] at this
        exact absurd this (by simp)
      | some r =>
        cases r with
        | none => exact queryLoop_isSome hw htf hex es
        | some vals =>
          dsimp only
          have hrec := queryLoop_isSome hw htf hex es
          cases hql : queryLoop w tids es with
          | none => rw [hql] at hrec; exact absurd hrec (by simp)
          | some L => rfl
    · rw [if_neg ha]
      exact queryLoop_isSome hw htf hex es

theorem queryLoop_nil [Inhabited Val] (w : World Val) :
    ∀ es : List Nat, queryLoop w [] es =
      some ((es.filter (fun e => aliveB w e)).map (fun e => (e, ([] : List Val))))
  | [] => rfl
  | e :: es => by
    unfold queryLoop
    rw [List.filter_cons]
    by_cases ha : aliveB w e = true
    · rw [if_pos ha, if_pos (by simp [ha])]
      show (queryLoop w [] es).map _ = _
      rw [queryLoop_nil w es]
      rfl
    · rw [if_neg ha, if_neg (by simp [Bool.eq_false_iff.2 ha])]
      exact queryLoop_nil w es

theorem querySpec_regOnly [Inhabited Val] {w w2 : World Val} (hr : RegOnly w w2)
    (hs : List Nat) : querySpec w2 hs = querySpec w hs := by
  have h1 : (fun e => aliveB w2 e && hs.all (fun h => presentB w2 h e)) =
      (fun e => aliveB w e && hs.all (fun h => presentB w h e)) := by
    funext e
    rw [show aliveB w2 e = aliveB w e from by rw [aliveB, aliveB, hr.1]]
    rw [show (fun h => presentB w2 h e) = (fun h => presentB w h e) from
      funext fun h => hr.2.2.2.1 h e]
  have h2 : (fun e => (e, hs.map (fun h => dataValB w2 h e))) =
      (fun e => (e, hs.map (fun h => dataValB w h e))) := by
    funext e
    rw [show (fun h => dataValB w2 h e) = (fun h => dataValB w h e) from
      funext fun h => hr.2.2.2.2.1 h e]
  rw [querySpec, querySpec, hr.2.1, h1, h2]

/-- Whenever the `query` scan runs without undefined behavior, it visits
exactly the entities demanded by the specification, with their stored
values. -/
theorem query_some_spec [Inhabited Val] {w : World Val} (hw : Inv w) (hs : List Nat)
    {L : List (Nat × List Val)} (hq : (query hs w).1 = some L) : L = querySpec w hs := by
  have hw2 := getTypeIds_inv hs hw
  have hreg := getTypeIds_regOnly hs hw
  have htf := getTypeIds_tidsFor hs hw
  have hq2 : queryLoop (getTypeIds hs w).2 (getTypeIds hs w).1
      (List.range ((getTypeIds hs w).2).nextEntity) = some L := hq
  rw [queryLoop_spec hw2 htf hq2, ← querySpec_regOnly hreg hs]
  rfl

/-- The empty type list scans without any pool access and visits exactly the
alive entities. -/
theorem query_nil [Inhabited Val] (w : World Val) :
    (query ([] : List Nat) w).1 =
      some (((List.range w.nextEntity).filter (fun e => aliveB w e)).map
        (fun e => (e, ([] : List Val)))) := by
  show queryLoop w [] (List.range w.nextEntity) = _
  exact queryLoop_nil w _

/-- Under the invariant, `query` runs without undefined behavior whenever a
pool exists for every requested type. -/
theorem query_isSome [Inhabited Val] {w : World Val} (hw : Inv w) {hs : List Nat}
    (hex : ∀ h ∈ hs, poolExists w h = true) : ((query hs w).1).isSome = true := by
  have hw2 := getTypeIds_inv hs hw
  have hreg := getTypeIds_regOnly hs hw
  have htf := getTypeIds_tidsFor hs hw
  have hex2 : ∀ h ∈ hs, poolExists (getTypeIds hs w).2 h = true := by
    intro h hh
    rw [hreg.2.2.1 h]
    exact hex h hh
  exact queryLoop_isSome hw2 htf hex2 _

theorem querySpec_fst [Inhabited Val] (w : World Val) (hs : List Nat) :
    (querySpec w hs).map Prod.fst =
      (List.range w.nextEntity).filter
        (fun e => aliveB w e && hs.all (fun h => presentB w h e)) := by
  unfold querySpec
  rw [List.map_map]
  exact List.map_id _

theorem querySpec_sorted [Inhabited Val] (w : World Val) (hs : List Nat) :
    List.Pairwise (· < ·) ((querySpec w hs).map Prod.fst) := by
  rw [querySpec_fst]
  exact (List.sorted_lt_range _).filter _

/-! ### Observable effects of `add_component` and `remove_component` -/

theorem status_cases (st : Status) : st = Status.OK ∨ st = Status.ERROR := by
  cases st
  · exact Or.inl rfl
  · exact Or.inr rfl

theorem observe_some_present [Inhabited Val] {w : World Val} (hw : Inv w) {h e : Nat}
    {v : Val} (ho : observe w h e = some v) :
    presentB w h e = true ∧ dataValB w h e = v := by
  unfold observe at ho
  cases hl : lookupType h w.typeMap with
  | none => rw [hl] at ho; exact absurd ho (by simp)
  | some s =>
    rw [hl] at ho
    dsimp only at ho
    cases hm : w.pools.getD s none with
    | none => rw [hm] at ho; exact absurd ho (by simp)
    | some pl =>
      rw [hm] at ho
      dsimp only at ho
      by_cases hcc : pl.data.length ≤ e ∨ pl.mask.getD e false = false
      · rw [if_pos hcc] at ho
        exact absurd ho (by simp)
      · rw [if_neg hcc] at ho
        injection ho with ho
        obtain ⟨hd, hmk⟩ := not_or.1 hcc
        obtain ⟨hld, hlm⟩ := hw.1 (some pl) (mem_of_getD_eq_some hm) pl rfl
        constructor
        · rw [presentB_eq hl hm, Bool.ne_false_iff.1 hmk, Bool.and_true]
          exact decide_eq_true (by omega)
        · rw [dataValB_eq hl hm, ho]

theorem add_observe_self [Inhabited Val] {w : World Val} (hw : Inv w) {e : Nat}
    (h : Nat) (v : Val) (hc : ¬(w.alive.length ≤ e ∨ w.alive.getD e false = false)) :
    observe (add_component h e v w).2 h e = some v := by
  have hw1 := getTypeId_inv hw h
  have he : e < w.alive.length := by
    obtain ⟨h1, _⟩ := not_or.1 hc
    omega
  have heW2 : e < ((getTypeId h w).2).alive.length := by
    rw [getTypeId_alive]
    exact he
  obtain ⟨hpd, hpm⟩ := ensurePool_lens hw1 (getTypeId h w).1
  rw [congrArg Prod.snd (add_component_ok_spec h v hc)]
  unfold observe
  dsimp only
  rw [getTypeId_lookup h w]
  dsimp only
  rw [getD_set_self _ _ _ _ (getTypeId_tid_lt hw h)]
  dsimp only
  have hcond : ¬((((((getTypeId h w).2).ensurePool (getTypeId h w).1).1).data.set e v).length ≤ e ∨
      (((((getTypeId h w).2).ensurePool (getTypeId h w).1).1).mask.set e true).getD e false = false) := by
    intro hcc
    rcases hcc with hcc | hcc
    · rw [List.length_set] at hcc
      omega
    · rw [getD_set_self _ _ _ _ (by omega)] at hcc
      exact Bool.noConfusion hcc
  rw [if_neg hcond, getD_set_self _ _ _ _ (by omega)]

theorem add_poolExists_self [Inhabited Val] {w : World Val} (hw : Inv w) {e : Nat}
    (h : Nat) (v : Val) (hc : ¬(w.alive.length ≤ e ∨ w.alive.getD e false = false)) :
    poolExists (add_component h e v w).2 h = true := by
  rw [congrArg Prod.snd (add_component_ok_spec h v hc)]
  unfold poolExists
  dsimp only
  rw [getTypeId_lookup h w]
  dsimp only
  rw [getD_set_self _ _ _ _ (getTypeId_tid_lt hw h)]
  rfl

theorem add_observe_other [Inhabited Val] {w : World Val} (hw : Inv w) {h e : Nat}
    {v : Val} (hc : ¬(w.alive.length ≤ e ∨ w.alive.getD e false = false))
    {h2 e2 : Nat} (hne : ¬(h2 = h ∧ e2 = e)) :
    observe (add_component h e v w).2 h2 e2 = observe w h2 e2 := by
  have hw1 := getTypeId_inv hw h
  have hreg := getTypeId_regOnly hw h
  rw [congrArg Prod.snd (add_component_ok_spec h v hc), ← hreg.2.2.2.2.2 h2 e2]
  have hl := getTypeId_lookup h w
  obtain ⟨hpd, hpm⟩ := ensurePool_lens hw1 (getTypeId h w).1
  by_cases hh : h2 = h
  · subst hh
    have he2 : e2 ≠ e := fun hc2 => hne ⟨rfl, hc2⟩
    unfold observe
    dsimp only
    rw [hl]
    dsimp only
    rw [getD_set_self _ _ _ _ (getTypeId_tid_lt hw h2)]
    cases hm : ((getTypeId h2 w).2).pools.getD (getTypeId h2 w).1 none with
    | none =>
      have hmask : ((((getTypeId h2 w).2).ensurePool (getTypeId h2 w).1).1).mask.getD e2 false
          = false := by
        unfold World.ensurePool
        dsimp only
        rw [hm]
        simp only [Option.getD_none]
        unfold Pool.ensureSize
        split_ifs with hgrow
        · dsimp only
          rw [getD_listResize]
          split_ifs <;> rfl
        · rw [List.getD_eq_getElem?_getD]
          rfl
      dsimp only
      rw [if_pos (Or.inr (by rw [getD_set_ne _ _ _ _ _ (fun hx => he2 hx.symm), hmask]))]
    | some q =>
      obtain ⟨hqd, hqm⟩ := hw1.1 (some q) (mem_of_getD_eq_some hm) q rfl
      have hP1 : (((getTypeId h2 w).2).ensurePool (getTypeId h2 w).1).1 = q := by
        unfold World.ensurePool
        dsimp only
        rw [hm]
        simp only [Option.getD_some]
        unfold Pool.ensureSize
        rw [if_neg (by omega)]
      rw [hP1]
      dsimp only
      rw [List.length_set, getD_set_ne _ _ _ _ _ (fun hx => he2 hx.symm),
        getD_set_ne _ _ _ _ _ (fun hx => he2 hx.symm)]
  · cases hl2 : lookupType h2 ((getTypeId h w).2).typeMap with
    | none =>
      unfold observe
      dsimp only
      rw [hl2]
    | some s =>
      have hsne : s ≠ (getTypeId h w).1 := lookupType_inj hw1 hh hl2 hl
      unfold observe
      dsimp only
      rw [hl2]
      dsimp only
      rw [getD_set_ne _ _ _ _ _ (fun hx => hsne hx.symm)]

theorem poolExists_lookup {w : World Val} {h : Nat} (hpe : poolExists w h = true) :
    ∃ s pl, lookupType h w.typeMap = some s ∧ w.pools.getD s none = some pl := by
  unfold poolExists at hpe
  cases hl : lookupType h w.typeMap with
  | none => rw [hl] at hpe; exact absurd hpe (by simp)
  | some s =>
    rw [hl] at hpe
    dsimp only at hpe
    cases hm : w.pools.getD s none with
    | none => rw [hm] at hpe; exact absurd hpe (by simp)
    | some pl => exact ⟨s, pl, rfl, hm⟩

/-- When `h` is registered, `getTypeId` finds its slot and leaves the world
untouched. -/
theorem getTypeId_found {w : World Val} {h s : Nat}
    (hl : lookupType h w.typeMap = some s) :
    (getTypeId h w).1 = s ∧ (getTypeId h w).2 = w := by
  rcases getTypeId_spec h w with ⟨hl2, hw2⟩ | ⟨hl2, _, _⟩
  · rw [hl] at hl2
    injection hl2 with hl2
    exact ⟨hl2.symm, hw2⟩
  · rw [hl] at hl2
    exact Option.noConfusion hl2

/-- Successful removal: the world keeps everything except the presence flag
of `h` at `e`, which is cleared when within range. -/
theorem remove_component_ok_world {w : World Val} {h : Nat}
    (hpe : poolExists w h = true) (e : Nat) :
    ∃ s pl, lookupType h w.typeMap = some s ∧ w.pools.getD s none = some pl ∧
      remove_component h e w = (Status.OK,
        { alive := w.alive
          nextEntity := w.nextEntity
          pools := w.pools.set s
            (some { data := pl.data
                    mask := if e < pl.mask.length then pl.mask.set e false
                            else pl.mask })
          typeMap := w.typeMap
          typeCounter := w.typeCounter }) := by
  obtain ⟨s, pl, hl, hm⟩ := poolExists_lookup hpe
  obtain ⟨hfst, hsnd⟩ := getTypeId_found hl
  refine ⟨s, pl, hl, hm, ?_⟩
  rcases remove_component_spec h e w with ⟨hm2, hr⟩ | ⟨pool, hm2, hr⟩
  · rw [hsnd, hfst, hm] at hm2
    exact Option.noConfusion hm2
  · rw [hsnd, hfst, hm] at hm2
    injection hm2 with hm2
    rw [hr, hsnd, hfst, hm2]

/-- Failure condition: `remove_component` fails exactly when no pool was ever created for the
type. -/
theorem remove_status_iff {w : World Val} (hw : Inv w) (h e : Nat) :
    (remove_component h e w).1 = Status.ERROR ↔ poolExists w h = false := by
  rcases remove_component_spec h e w with ⟨hm, hr⟩ | ⟨pool, hm, hr⟩
  · rw [hr]
    refine iff_of_true rfl ?_
    cases hl : lookupType h w.typeMap with
    | none =>
      unfold poolExists
      rw [hl]
    | some s =>
      obtain ⟨hfst, hsnd⟩ := getTypeId_found hl
      rw [hsnd, hfst] at hm
      unfold poolExists
      rw [hl]
      dsimp only
      rw [hm]
      rfl
  · rw [hr]
    refine iff_of_false (fun hcc => Status.noConfusion hcc) ?_
    cases hl : lookupType h w.typeMap with
    | none =>
      have := getTypeId_fresh_slot_none hw hl
      rw [this] at hm
      exact Option.noConfusion hm
    | some s =>
      obtain ⟨hfst, hsnd⟩ := getTypeId_found hl
      rw [hsnd, hfst] at hm
      unfold poolExists
      rw [hl]
      dsimp only
      rw [hm]
      simp

/-- After a successful removal the association of `h` at `e` is absent. -/
theorem remove_observe_self [Inhabited Val] {w : World Val} {h : Nat}
    (hpe : poolExists w h = true) (e : Nat) :
    observe (remove_component h e w).2 h e = none := by
  obtain ⟨s, pl, hl, hm, hr⟩ := remove_component_ok_world hpe e
  rw [congrArg Prod.snd hr]
  unfold observe
  dsimp only
  rw [hl]
  dsimp only
  rw [getD_set_self _ _ _ _ (getD_eq_some_lt hm)]
  dsimp only
  refine if_pos (Or.inr ?_)
  split_ifs with hb
  · exact getD_set_self _ _ _ _ hb
  · rw [List.getD_eq_getElem?_getD, List.getElem?_eq_none (by omega)]
    rfl

theorem poolExists_remove [Inhabited Val] {w : World Val} (hw : Inv w) (h e h2 : Nat) :
    poolExists (remove_component h e w).2 h2 = poolExists w h2 := by
  have hreg := getTypeId_regOnly hw h
  rcases remove_component_spec h e w with ⟨hm, hr⟩ | ⟨pool, hm, hr⟩
  · rw [congrArg Prod.snd hr]
    exact hreg.2.2.1 h2
  · rw [congrArg Prod.snd hr, ← hreg.2.2.1 h2]
    unfold poolExists
    dsimp only
    cases hl2 : lookupType h2 ((getTypeId h w).2).typeMap with
    | none => rfl
    | some s =>
      dsimp only
      by_cases hst : (getTypeId h w).1 = s
      · subst hst
        rw [getD_set_self _ _ _ _ (getD_eq_some_lt hm), hm]
        rfl
      · rw [getD_set_ne _ _ _ _ _ hst]

/-! ### `get_component` depends only on the registry and the pools -/

theorem getTypeId_congr {w w2 : World Val} (htm : w2.typeMap = w.typeMap)
    (hpl : w2.pools = w.pools) (htc : w2.typeCounter = w.typeCounter) (h : Nat) :
    (getTypeId h w2).1 = (getTypeId h w).1 ∧
    ((getTypeId h w2).2).typeMap = ((getTypeId h w).2).typeMap ∧
    ((getTypeId h w2).2).pools = ((getTypeId h w).2).pools := by
  cases hl : lookupType h w.typeMap with
  | some s =>
    have hl2 : lookupType h w2.typeMap = some s := by rw [htm]; exact hl
    obtain ⟨ha1, ha2⟩ := getTypeId_found hl
    obtain ⟨hb1, hb2⟩ := getTypeId_found hl2
    rw [ha1, ha2, hb1, hb2]
    exact ⟨rfl, htm, hpl⟩
  | none =>
    have hl2 : lookupType h w2.typeMap = none := by rw [htm]; exact hl
    rcases getTypeId_spec h w with ⟨hc1, _⟩ | ⟨_, hc2, hc3⟩
    · rw [hl] at hc1
      exact Option.noConfusion hc1
    rcases getTypeId_spec h w2 with ⟨hd1, _⟩ | ⟨_, hd2, hd3⟩
    · rw [hl2] at hd1
      exact Option.noConfusion hd1
    rw [hc2, hc3, hd2, hd3]
    dsimp only
    rw [htm, hpl, htc]
    exact ⟨rfl, rfl, rfl⟩

theorem observe_congr [Inhabited Val] {w w2 : World Val} (htm : w2.typeMap = w.typeMap)
    (hpl : w2.pools = w.pools) (h e : Nat) : observe w2 h e = observe w h e := by
  unfold observe
  rw [htm, hpl]

theorem get_fst_congr [Inhabited Val] {w w2 : World Val} (htm : w2.typeMap = w.typeMap)
    (hpl : w2.pools = w.pools) (htc : w2.typeCounter = w.typeCounter) (h e : Nat) :
    (get_component h e w2).1 = (get_component h e w).1 := by
  rw [get_component_fst, get_component_fst]
  obtain ⟨_, h2, h3⟩ := getTypeId_congr htm hpl htc h
  exact observe_congr h2 h3 h e

/-! ### Iterated entity creation and the 32-bit wrap-around -/

theorem createN_zero [Inhabited Val] (w : World Val) : createN 0 w = w := rfl

theorem createN_succ [Inhabited Val] (k : Nat) (w : World Val) :
    createN (k + 1) w = createN k (create_entity w).2 :=
  Function.iterate_succ_apply _ _ _

theorem createN_succ2 [Inhabited Val] (k : Nat) (w : World Val) :
    createN (k + 1) w = (create_entity (createN k w)).2 :=
  Function.iterate_succ_apply' _ _ _

theorem reached_createN [Inhabited Val] {w : World Val} {n : Nat} (hr : Reached w n) :
    ∀ k : Nat, Reached (createN k w) (n + k)
  | 0 => hr
  | k + 1 => by
    rw [createN_succ2]
    exact Reached.create (reached_createN hr k)

theorem getD_map_option {l : List (Option (Pool Val))} (f : Pool Val → Pool Val)
    (i : Nat) : (l.map (Option.map f)).getD i none = (l.getD i none).map f := by
  rw [List.getD_eq_getElem?_getD, List.getElem?_map, List.getD_eq_getElem?_getD]
  cases l[i]? <;> rfl

theorem create_pool_isSome [Inhabited Val] (w : World Val) (i : Nat) :
    ((((create_entity w).2).pools.getD i none)).isSome =
      ((w.pools.getD i none)).isSome := by
  rw [create_entity_eq]
  dsimp only
  unfold World.ensureEntity
  split_ifs with hc
  · dsimp only
    rw [getD_map_option]
    cases w.pools.getD i none <;> rfl
  · rfl

theorem createN_pool_isSome [Inhabited Val] (w : World Val) (i : Nat) :
    ∀ k : Nat, ((((createN k w).pools.getD i none)).isSome) =
      ((w.pools.getD i none)).isSome
  | 0 => rfl
  | k + 1 => by
    rw [createN_succ2, create_pool_isSome]
    exact createN_pool_isSome w i k

theorem min_self_pow (n : Nat) (hn : 2 ^ 32 ≤ n) : min n (2 ^ 32) = 2 ^ 32 := by omega

theorem mod_self_ne_zero (n : Nat) (h1 : 1 ≤ n) (h2 : n < 2 ^ 32) : n % 2 ^ 32 ≠ 0 := by
  omega

theorem min_pos (n : Nat) (h1 : 1 ≤ n) : 0 < min n (2 ^ 32) := by omega

/-- While fewer than `2 ^ 32` entities have ever been created, further
creations never touch the liveness flag of entity `0` (issued ids stay
nonzero). -/
theorem createN_alive0 [Inhabited Val] :
    ∀ (k : Nat) {w : World Val} {n : Nat}, Reached w n → 1 ≤ n → n + k ≤ 2 ^ 32 →
      (createN k w).alive.getD 0 false = w.alive.getD 0 false
  | 0, _, _, _, _, _ => rfl
  | k + 1, w, n, hr, h1, hk => by
    rw [createN_succ]
    have hC := (reached_inv hr).2
    have hrec := createN_alive0 k (Reached.create hr) (by omega) (by omega)
    rw [hrec]
    apply create_alive_getD_ne
    · rw [hC.1]
      exact min_pos n h1
    · rw [hC.2]
      exact (mod_self_ne_zero n h1 (by omega)).symm

/-- Readback: `get_component` reports exactly the observable association, and its side
effect is only type registration. -/
theorem get_component_observe [Inhabited Val] {w : World Val} (hw : Inv w) (h e : Nat) :
    (get_component h e w).1 = observe w h e := by
  rw [get_component_fst]
  exact (getTypeId_regOnly hw h).2.2.2.2.2 h e

/-! ### Small corollaries used by the claim theorems -/

theorem add_component_ok [Inhabited Val] {w : World Val} {e : Nat} (h : Nat) (v : Val)
    (hc : ¬(w.alive.length ≤ e ∨ w.alive.getD e false = false)) :
    (add_component h e v w).1 = Status.OK := by
  rcases status_cases (add_component h e v w).1 with hst | hst
  · exact hst
  · exact absurd ((add_component_status h e v w).1 hst) hc

theorem add_err_world [Inhabited Val] {w : World Val} {h e : Nat} {v : Val}
    (herr : (add_component h e v w).1 = Status.ERROR) :
    (add_component h e v w).2 = w := by
  by_cases hc : w.alive.length ≤ e ∨ w.alive.getD e false = false
  · rw [add_component_err h v hc]
  · rw [add_component_ok_spec h v hc] at herr
    exact Status.noConfusion herr

theorem remove_component_ok_status {w : World Val} (hw : Inv w) {h : Nat} (e : Nat)
    (hpe : poolExists w h = true) : (remove_component h e w).1 = Status.OK := by
  rcases status_cases (remove_component h e w).1 with hst | hst
  · exact hst
  · have := (remove_status_iff hw h e).1 hst
    rw [hpe] at this
    exact Bool.noConfusion this

theorem aliveB_congr {w w2 : World Val} (ha : w2.alive = w.alive) (e : Nat) :
    aliveB w2 e = aliveB w e := by
  unfold aliveB
  rw [ha]

theorem aliveB_not_cond {w : World Val} {e : Nat} (ha : aliveB w e = true) :
    ¬(w.alive.length ≤ e ∨ w.alive.getD e false = false) := by
  simp only [aliveB, Bool.and_eq_true, decide_eq_true_eq] at ha
  intro hcc
  rcases hcc with hcc | hcc
  · omega
  · rw [ha.2] at hcc
    exact Bool.noConfusion hcc

theorem aliveB_destroy_dead {w : World Val} {e e2 : Nat} (hd : aliveB w e = false) :
    aliveB (destroy_entity w e2) e = false := by
  unfold aliveB at hd ⊢
  rw [(destroy_entity_fields w e2).2.2.2.2]
  by_cases hee : e = e2
  · subst hee
    rw [destroy_alive_getD_self]
    exact Bool.and_false _
  · rw [destroy_alive_getD_ne hee]
    exact hd

theorem min_succ_pow : min (2 ^ 32 + 1) (2 ^ 32) = 2 ^ 32 := by omega

theorem sample2_reached : Reached sample2 2 :=
  Reached.create (Reached.create Reached.init)

theorem sampleAdd_reached : Reached sampleAdd 2 :=
  Reached.add 0 0 35 sample2_reached

theorem sampleQ_reached : Reached sampleQ 2 :=
  Reached.add 1 1 77 (Reached.add 0 1 55 (Reached.add 0 0 11 sample2_reached))

/-- Shared wrapped-counter state: starting from the empty world, one
creation followed by `2 ^ 32 - 1` further creations drives the 32-bit
entity counter through a full cycle, so the scan bound `nextEntity` wraps
back to `0` while entity `0` is still alive. -/
theorem wrapWorld_facts :
    Reached (createN (2 ^ 32 - 1) (create_entity (World.init : World Nat)).2) (2 ^ 32) ∧
    (createN (2 ^ 32 - 1) (create_entity (World.init : World Nat)).2).nextEntity = 0 ∧
    aliveB (createN (2 ^ 32 - 1) (create_entity (World.init : World Nat)).2) 0 = true := by
  set w1 : World Nat := (create_entity (World.init : World Nat)).2 with hw1
  set wk : World Nat := createN (2 ^ 32 - 1) w1 with hwk
  have hr1 : Reached w1 1 := Reached.create Reached.init
  have hrk : Reached wk (2 ^ 32) := by
    have hx := reached_createN hr1 (2 ^ 32 - 1)
    have h132 : (1 : Nat) + (2 ^ 32 - 1) = 2 ^ 32 := by omega
    rw [h132] at hx
    exact hx
  have hC := (reached_inv hrk).2
  have halen : wk.alive.length = 2 ^ 32 := by
    rw [hC.1]
    exact Nat.min_self _
  have hnext : wk.nextEntity = 0 := by
    rw [hC.2]
    exact Nat.mod_self _
  have hg1 : w1.alive.getD 0 false = true := create_alive_getD_self (World.init : World Nat)
  have hgk : wk.alive.getD 0 false = true := by
    have hx := createN_alive0 (2 ^ 32 - 1) hr1 (le_refl 1) (by omega)
    rw [hwk, hx]
    exact hg1
  refine ⟨hrk, hnext, ?_⟩
  unfold aliveB
  rw [halen, hgk, Bool.and_true]
  exact decide_eq_true (by omega)

/-! ### The claims -/

/-- C1 counterexample: after `2 ^ 32` total creations the 32-bit entity
counter wraps, so the scan bound `nextEntity` is `0` while entity `0` is
alive, and `query` with the empty type list returns the empty visit list
without visiting the alive entity `0` — refuting "with the empty type list
it visits exactly the alive entities". -/
theorem claim_C1_counterexample :
    aliveB (createN (2 ^ 32 - 1) (create_entity (World.init : World Nat)).2) 0 = true ∧
    (query ([] : List Nat)
        (createN (2 ^ 32 - 1) (create_entity (World.init : World Nat)).2)).1 =
      some ([] : List (Nat × List Nat)) := by
  obtain ⟨_, hnext, ha⟩ := wrapWorld_facts
  refine ⟨ha, ?_⟩
  rw [query_nil, hnext]
  rfl

/-- C1 (amended): for every world and type list, whenever the `query` scan
executes with defined behavior it invokes the visitor exactly once for each
entity id below the scan bound `nextEntity` that is alive and whose
presence flag is set in every requested pool, in strictly ascending id
order, skipping all other ids and passing each entity's stored component
values; with the empty type list it visits exactly the alive entities below
`nextEntity`. Until the 32-bit entity counter wraps every alive entity is
below `nextEntity`, but after `2 ^ 32` creations alive entities with ids at
or above `nextEntity` exist and are never visited. -/
theorem claim_C1_amended {Val : Type} [Inhabited Val] (w : World Val) (hs : List Nat)
    (L : List (Nat × List Val)) :
    (Inv w → (query hs w).1 = some L →
      (L = querySpec w hs ∧
       L.map Prod.fst = (List.range w.nextEntity).filter
         (fun e => aliveB w e && hs.all (fun h => presentB w h e)) ∧
       List.Pairwise (· < ·) (L.map Prod.fst))) ∧
    (query ([] : List Nat) w).1 =
      some (((List.range w.nextEntity).filter (fun e => aliveB w e)).map
        (fun e => (e, ([] : List Val)))) := by
  constructor
  · intro hw hq
    have hL := query_some_spec hw hs hq
    refine ⟨hL, ?_, ?_⟩
    · rw [hL, querySpec_fst]
    · rw [hL]
      exact querySpec_sorted w hs
  · exact query_nil w

theorem claim_C1_witness :
    ([((0 : Nat), [(11 : Nat)]), (1, [55])].map Prod.fst) =
      (List.range sampleQ.nextEntity).filter
        (fun e => aliveB sampleQ e && [0].all (fun h => presentB sampleQ h e)) :=
  ((claim_C1_amended sampleQ [0] [(0, [11]), (1, [55])]).1
    (reached_inv sampleQ_reached).1 (by decide)).2.1

/-- C9: in a reachable world in which every requested type has a
materialized pool (as after a successful `add_component` of each), the
`query` scan performs no null-pool dereference and no out-of-range access,
so its embedding returns a defined visit list. -/
theorem claim_C9 {Val : Type} [Inhabited Val] (w : World Val) (n : Nat) (hs : List Nat)
    (hr : Reached w n) (hex : ∀ h ∈ hs, poolExists w h = true) :
    ∃ L, (query hs w).1 = some L :=
  Option.isSome_iff_exists.1 (query_isSome (reached_inv hr).1 hex)

theorem claim_C9_witness : ∃ L, (query [0, 1] sampleQ).1 = some L :=
  claim_C9 sampleQ 2 [0, 1] sampleQ_reached (by decide)

/-- C2 counterexample: on a fresh world, `get_component` for type `0`
touches the type (it registers it: the slot map afterwards resolves type `0`
to slot `0`), yet no pool exists for it afterwards — refuting the claim that
the first `get_component` touching a type creates its pool. -/
theorem claim_C2_counterexample :
    lookupType 0 (((get_component 0 0 (World.init : World Nat)).2)).typeMap = some 0 ∧
    poolExists ((get_component 0 0 (World.init : World Nat)).2) 0 = false := by
  decide

/-- C2 (amended): a pool for a type is created exactly by the first
successful `add_component` of that type; `get_component`,
`remove_component` and `query` register the type at most and never create a
pool, a failing `add_component` changes nothing, and a fresh world has no
pools. -/
theorem claim_C2_amended {Val : Type} [Inhabited Val] (w : World Val) (h h2 e : Nat)
    (v : Val) (hs : List Nat) :
    (poolExists (World.init : World Val) h = false) ∧
    (Inv w → poolExists w h2 = false →
      poolExists (get_component h e w).2 h2 = false ∧
      poolExists (remove_component h e w).2 h2 = false ∧
      poolExists (query hs w).2 h2 = false) ∧
    ((add_component h e v w).1 = Status.OK → Inv w →
      poolExists (add_component h e v w).2 h = true) ∧
    ((add_component h e v w).1 = Status.ERROR → (add_component h e v w).2 = w) := by
  refine ⟨rfl, ?_, ?_, fun herr => add_err_world herr⟩
  · intro hw hpf
    refine ⟨?_, ?_, ?_⟩
    · rw [get_component_world, (getTypeId_regOnly hw h).2.2.1 h2]
      exact hpf
    · rw [poolExists_remove hw h e h2]
      exact hpf
    · rw [query_world, (getTypeIds_regOnly hs hw).2.2.1 h2]
      exact hpf
  · intro hok hw
    by_cases hc : w.alive.length ≤ e ∨ w.alive.getD e false = false
    · rw [add_component_err h v hc] at hok
      exact Status.noConfusion hok
    · exact add_poolExists_self hw h v hc

theorem claim_C2_witness :
    poolExists ((get_component 5 0 sample2).2) 5 = false ∧
    poolExists ((add_component 0 0 (35 : Nat) sample2).2) 0 = true :=
  ⟨((claim_C2_amended sample2 5 5 0 (0 : Nat) []).2.1
      (reached_inv sample2_reached).1 (by decide)).1,
   (claim_C2_amended sample2 0 0 0 (35 : Nat) []).2.2.1 (by decide)
      (reached_inv sample2_reached).1⟩

/-- C3 counterexample: `get_component` for a never-seen type on a fresh
world reports absent, yet it mutates the world: the type registry counter
changes from `0` to `1` — refuting the claim that an absent lookup performs
no mutation of the type registry. -/
theorem claim_C3_counterexample :
    (get_component 0 0 (World.init : World Nat)).1 = none ∧
    ((get_component 0 0 (World.init : World Nat)).2).typeCounter ≠
      (World.init : World Nat).typeCounter := by
  decide

/-- C3 (amended): a failing `add_component` changes nothing at all; a
failing `remove_component` and an absent `get_component` leave the liveness
table, the entity counter and every existing pool entry unchanged — their
only possible side effect is registering the type, which appends null pool
slots. -/
theorem claim_C3_amended {Val : Type} [Inhabited Val] (w : World Val) (h e : Nat)
    (v : Val) :
    ((add_component h e v w).1 = Status.ERROR → (add_component h e v w).2 = w) ∧
    ((remove_component h e w).1 = Status.ERROR →
      ((remove_component h e w).2).alive = w.alive ∧
      ((remove_component h e w).2).nextEntity = w.nextEntity ∧
      (∀ i, i < w.pools.length → ((remove_component h e w).2).pools[i]? = w.pools[i]?) ∧
      (∀ i, w.pools.length ≤ i → ((remove_component h e w).2).pools.getD i none = none)) ∧
    ((get_component h e w).1 = none →
      ((get_component h e w).2).alive = w.alive ∧
      ((get_component h e w).2).nextEntity = w.nextEntity ∧
      (∀ i, i < w.pools.length → ((get_component h e w).2).pools[i]? = w.pools[i]?) ∧
      (∀ i, w.pools.length ≤ i → ((get_component h e w).2).pools.getD i none = none)) := by
  refine ⟨fun herr => add_err_world herr, ?_, ?_⟩
  · intro herr
    have hwld : (remove_component h e w).2 = (getTypeId h w).2 := by
      rcases remove_component_spec h e w with ⟨_, hr⟩ | ⟨pool, _, hr⟩
      · rw [hr]
      · rw [hr] at herr
        exact Status.noConfusion herr
    rw [hwld]
    exact ⟨getTypeId_alive h w, getTypeId_nextEntity h w,
      (getTypeId_pools_frame h w).1, (getTypeId_pools_frame h w).2⟩
  · intro _
    rw [get_component_world]
    exact ⟨getTypeId_alive h w, getTypeId_nextEntity h w,
      (getTypeId_pools_frame h w).1, (getTypeId_pools_frame h w).2⟩

theorem claim_C3_witness :
    ((remove_component 0 0 (World.init : World Nat)).2).alive =
      (World.init : World Nat).alive :=
  ((claim_C3_amended (World.init : World Nat) 0 0 (0 : Nat)).2.1 (by decide)).1

/-- C4 counterexample: type `0` has been used against the world (a
`get_component` registered it, as the slot map shows), yet
`remove_component` still reports ERROR — refuting the "ERROR if and only if
the type was never used" reading; ERROR tracks pool creation, not use. -/
theorem claim_C4_counterexample :
    lookupType 0 (((get_component 0 0 (World.init : World Nat)).2)).typeMap = some 0 ∧
    (remove_component 0 0 ((get_component 0 0 (World.init : World Nat)).2)).1 =
      Status.ERROR := by
  decide

/-- C4 (amended): `remove_component` returns ERROR exactly when no pool was
ever created for the type (which happens on the first successful
`add_component`, not on mere use); otherwise it returns OK, clears the
presence flag when `e` is within the pool (a benign no-op otherwise,
including dead or out-of-range entities), and never erases the stored
values. -/
theorem claim_C4_amended {Val : Type} [Inhabited Val] (w : World Val) (h e : Nat)
    (hw : Inv w) :
    ((remove_component h e w).1 = Status.ERROR ↔ poolExists w h = false) ∧
    (poolExists w h = true →
      ∃ s pl, lookupType h w.typeMap = some s ∧ w.pools.getD s none = some pl ∧
        remove_component h e w = (Status.OK,
          { alive := w.alive
            nextEntity := w.nextEntity
            pools := w.pools.set s
              (some { data := pl.data
                      mask := if e < pl.mask.length then pl.mask.set e false
                              else pl.mask })
            typeMap := w.typeMap
            typeCounter := w.typeCounter })) :=
  ⟨remove_status_iff hw h e, fun hpe => remove_component_ok_world hpe e⟩

theorem claim_C4_witness :
    (remove_component 3 0 sampleAdd).1 = Status.ERROR ∧
    (remove_component 0 5 sampleAdd).1 = Status.OK := by
  constructor
  · exact ((claim_C4_amended sampleAdd 3 0 (reached_inv sampleAdd_reached).1).1).2
      (by decide)
  · obtain ⟨s, pl, _, _, hr⟩ :=
      (claim_C4_amended sampleAdd 0 5 (reached_inv sampleAdd_reached).1).2 (by decide)
    rw [hr]

/-- C5 counterexample: entity `0` is created and destroyed, but after
`2 ^ 32 - 1` further creations the 32-bit entity counter wraps to `0` and
the next `create_entity` re-issues id `0`, after which a subsequent
`add_component` on the destroyed entity `0` succeeds — refuting "after
`destroy_entity(w, e)` every subsequent `add_component(w, e, _)` returns
ERROR". -/
theorem claim_C5_counterexample :
    (create_entity (World.init : World Nat)).1 = 0 ∧
    (add_component 0 0 (0 : Nat)
      (create_entity (createN (2 ^ 32 - 1)
        (destroy_entity (create_entity (World.init : World Nat)).2 0))).2).1 =
      Status.OK := by
  constructor
  · rfl
  · set wd : World Nat := destroy_entity (create_entity (World.init : World Nat)).2 0
      with hwd
    set wk : World Nat := createN (2 ^ 32 - 1) wd with hwk
    have hrd : Reached wd 1 := Reached.destroy 0 (Reached.create Reached.init)
    have hrk : Reached wk (2 ^ 32) := by
      have hx := reached_createN hrd (2 ^ 32 - 1)
      have h132 : (1 : Nat) + (2 ^ 32 - 1) = 2 ^ 32 := by omega
      rw [h132] at hx
      exact hx
    have hC := (reached_inv hrk).2
    have halen : wk.alive.length = 2 ^ 32 := by
      rw [hC.1]
      exact Nat.min_self _
    have hnext : wk.nextEntity = 0 := by
      rw [hC.2]
      exact Nat.mod_self _
    have hW5getD : ((create_entity wk).2).alive.getD 0 false = true := by
      have hx := create_alive_getD_self wk
      rw [hnext] at hx
      exact hx
    have hW5len : ((create_entity wk).2).alive.length = 2 ^ 32 := by
      rw [(create_entity_fields wk).2.2.2.1, halen, hnext]
      exact max_eq_left (by omega)
    rcases status_cases (add_component 0 0 (0 : Nat) (create_entity wk).2).1 with hst | hst
    · exact hst
    · exfalso
      rcases (add_component_status 0 0 (0 : Nat) _).1 hst with hcond | hcond
      · rw [hW5len] at hcond
        exact absurd hcond (by omega)
      · rw [hW5getD] at hcond
        exact Bool.noConfusion hcond

/-- C5 (amended): `add_component` returns ERROR exactly when the entity is
out of range of the liveness table or not alive; immediately after
`destroy_entity(w, e)` the entity is dead or out of range, so
`add_component(w, e, _)` fails for any type; and deadness of an entity is
preserved by every operation except a `create_entity` that re-issues its id
after the 32-bit entity counter wraps around. -/
theorem claim_C5_amended {Val : Type} [Inhabited Val] (w : World Val) (h e e2 : Nat)
    (v : Val) (hs : List Nat) :
    ((add_component h e v w).1 = Status.ERROR ↔
      (w.alive.length ≤ e ∨ w.alive.getD e false = false)) ∧
    ((add_component h e v (destroy_entity w e)).1 = Status.ERROR) ∧
    (aliveB w e = false →
      aliveB (destroy_entity w e2) e = false ∧
      aliveB (add_component h e2 v w).2 e = false ∧
      aliveB (remove_component h e2 w).2 e = false ∧
      aliveB (get_component h e2 w).2 e = false ∧
      aliveB (query hs w).2 e = false) := by
  refine ⟨add_component_status h e v w, ?_, ?_⟩
  · exact (add_component_status h e v (destroy_entity w e)).2
      (Or.inr (destroy_alive_getD_self w e))
  · intro hdead
    refine ⟨aliveB_destroy_dead hdead, ?_, ?_, ?_, ?_⟩
    · rw [aliveB_congr (add_component_frame h e2 v w).1]
      exact hdead
    · rw [aliveB_congr (remove_component_frame h e2 w).1]
      exact hdead
    · rw [get_component_world, aliveB_congr (getTypeId_alive h w)]
      exact hdead
    · rw [query_world, aliveB_congr (getTypeIds_frame hs w).1]
      exact hdead

theorem claim_C5_witness :
    aliveB (destroy_entity (destroy_entity sample2 0) 1) 0 = false :=
  ((claim_C5_amended (destroy_entity sample2 0) 0 0 1 (35 : Nat) []).2.2
    (by decide)).1

/-- C6 counterexample: in the wrapped-counter state (entity `0` alive,
scan bound `nextEntity` back at `0`), the add / remove / re-add chain on
entity `0` makes `get_component` return the re-added value `99`, yet
`query` on that type runs with defined behavior and returns the empty
visit list, which does not contain `(0, [99])` — refuting "re-adding a
different value makes `query` observe the new value". -/
theorem claim_C6_counterexample :
    aliveB (createN (2 ^ 32 - 1) (create_entity (World.init : World Nat)).2) 0 = true ∧
    (get_component 0 0
        (add_component 0 0 (99 : Nat)
          (remove_component 0 0
            (add_component 0 0 (35 : Nat)
              (createN (2 ^ 32 - 1)
                (create_entity (World.init : World Nat)).2)).2).2).2).1 =
      some 99 ∧
    (query [0]
        (add_component 0 0 (99 : Nat)
          (remove_component 0 0
            (add_component 0 0 (35 : Nat)
              (createN (2 ^ 32 - 1)
                (create_entity (World.init : World Nat)).2)).2).2).2).1 =
      some ([] : List (Nat × List Nat)) ∧
    ((0 : Nat), [(99 : Nat)]) ∉ ([] : List (Nat × List Nat)) := by
  obtain ⟨hr, hnext, ha⟩ := wrapWorld_facts
  set wk : World Nat := createN (2 ^ 32 - 1) (create_entity (World.init : World Nat)).2
    with hwk
  have hw : Inv wk := (reached_inv hr).1
  have hc : ¬(wk.alive.length ≤ 0 ∨ wk.alive.getD 0 false = false) := aliveB_not_cond ha
  set w1 : World Nat := (add_component 0 0 (35 : Nat) wk).2 with hw1eq
  have hw1 : Inv w1 := add_component_inv hw 0 0 35
  have hpe1 : poolExists w1 0 = true := add_poolExists_self hw 0 35 hc
  set w2 : World Nat := (remove_component 0 0 w1).2 with hw2eq
  have hw2 : Inv w2 := remove_component_inv hw1 0 0
  have halive2 : w2.alive = wk.alive := by
    rw [hw2eq, (remove_component_frame 0 0 w1).1, hw1eq,
      (add_component_frame 0 0 35 wk).1]
  have hc2 : ¬(w2.alive.length ≤ 0 ∨ w2.alive.getD 0 false = false) := by
    rw [halive2]
    exact hc
  set w3 : World Nat := (add_component 0 0 (99 : Nat) w2).2 with hw3eq
  have hw3 : Inv w3 := add_component_inv hw2 0 0 99
  have hobs3 : observe w3 0 0 = some 99 := add_observe_self hw2 0 99 hc2
  have hg3 : (get_component 0 0 w3).1 = some 99 := by
    rw [get_component_observe hw3 0 0]
    exact hobs3
  have hnext3 : w3.nextEntity = 0 := by
    rw [hw3eq, (add_component_frame 0 0 99 w2).2, hw2eq,
      (remove_component_frame 0 0 w1).2, hw1eq, (add_component_frame 0 0 35 wk).2, hnext]
  have hpe3 : poolExists w3 0 = true := add_poolExists_self hw2 0 99 hc2
  have hqs : ((query [0] w3).1).isSome = true := by
    refine query_isSome hw3 ?_
    intro h2 hh2
    rw [List.mem_singleton.1 hh2]
    exact hpe3
  obtain ⟨L, hL⟩ := Option.isSome_iff_exists.1 hqs
  have hLe : L = [] := by
    have hq := query_some_spec hw3 [0] hL
    rw [hq]
    unfold querySpec
    rw [hnext3]
    rfl
  refine ⟨ha, hg3, ?_, by simp⟩
  rw [hL, hLe]

/-- C6 (amended): on an alive entity, `add_component` succeeds and
`get_component` returns exactly the stored value; a subsequent
`remove_component` succeeds and makes `get_component` report absent; and
re-adding a different value makes `get_component` observe the new value.
`query` also observes the new value whenever the entity id is below the
scan bound `nextEntity`, which holds for every alive entity until the
32-bit entity counter wraps; after the wrap the re-added component is
visible to `get_component` but can be invisible to `query`. -/
theorem claim_C6_amended {Val : Type} [Inhabited Val] (w : World Val) (h e : Nat) (v v2 : Val)
    (hw : Inv w) (ha : aliveB w e = true) :
    (add_component h e v w).1 = Status.OK ∧
    (get_component h e (add_component h e v w).2).1 = some v ∧
    (remove_component h e (add_component h e v w).2).1 = Status.OK ∧
    (get_component h e (remove_component h e (add_component h e v w).2).2).1 = none ∧
    (get_component h e
      (add_component h e v2 (remove_component h e (add_component h e v w).2).2).2).1 =
      some v2 ∧
    (e < w.nextEntity →
      ∃ L, (query [h]
          (add_component h e v2 (remove_component h e (add_component h e v w).2).2).2).1 =
        some L ∧ (e, [v2]) ∈ L) := by
  have hc : ¬(w.alive.length ≤ e ∨ w.alive.getD e false = false) := aliveB_not_cond ha
  set w1 : World Val := (add_component h e v w).2 with hw1eq
  have hw1 : Inv w1 := add_component_inv hw h e v
  have halive1 : w1.alive = w.alive := (add_component_frame h e v w).1
  have hnext1 : w1.nextEntity = w.nextEntity := (add_component_frame h e v w).2
  have hg1 : (get_component h e w1).1 = some v := by
    rw [get_component_observe hw1 h e]
    exact add_observe_self hw h v hc
  have hpe1 : poolExists w1 h = true := add_poolExists_self hw h v hc
  set w2 : World Val := (remove_component h e w1).2 with hw2eq
  have hw2 : Inv w2 := remove_component_inv hw1 h e
  have halive2 : w2.alive = w.alive := by
    rw [hw2eq, (remove_component_frame h e w1).1, halive1]
  have hnext2 : w2.nextEntity = w.nextEntity := by
    rw [hw2eq, (remove_component_frame h e w1).2, hnext1]
  have hg2 : (get_component h e w2).1 = none := by
    rw [get_component_observe hw2 h e]
    exact remove_observe_self hpe1 e
  have hc2 : ¬(w2.alive.length ≤ e ∨ w2.alive.getD e false = false) := by
    rw [halive2]
    exact hc
  set w3 : World Val := (add_component h e v2 w2).2 with hw3eq
  have hw3 : Inv w3 := add_component_inv hw2 h e v2
  have halive3 : w3.alive = w.alive := by
    rw [hw3eq, (add_component_frame h e v2 w2).1, halive2]
  have hnext3 : w3.nextEntity = w.nextEntity := by
    rw [hw3eq, (add_component_frame h e v2 w2).2, hnext2]
  have hobs3 : observe w3 h e = some v2 := add_observe_self hw2 h v2 hc2
  have hg3 : (get_component h e w3).1 = some v2 := by
    rw [get_component_observe hw3 h e]
    exact hobs3
  have hpe3 : poolExists w3 h = true := add_poolExists_self hw2 h v2 hc2
  refine ⟨add_component_ok h v hc, hg1, remove_component_ok_status hw1 e hpe1, hg2, hg3,
    ?_⟩
  intro hen
  have hqs : ((query [h] w3).1).isSome = true := by
    refine query_isSome hw3 ?_
    intro h2 hh2
    rw [List.mem_singleton.1 hh2]
    exact hpe3
  obtain ⟨L, hL⟩ := Option.isSome_iff_exists.1 hqs
  refine ⟨L, hL, ?_⟩
  obtain ⟨hpres3, hdv3⟩ := observe_some_present hw3 hobs3
  rw [query_some_spec hw3 [h] hL]
  unfold querySpec
  refine List.mem_map.2 ⟨e, List.mem_filter.2 ⟨?_, ?_⟩, ?_⟩
  · refine List.mem_range.2 ?_
    rw [hnext3]
    exact hen
  · have ha3 : aliveB w3 e = true := by
      rw [aliveB_congr halive3]
      exact ha
    simp [ha3, hpres3]
  · simp [hdv3]

theorem claim_C6_witness :
    (get_component 0 0
      (add_component 0 0 (99 : Nat)
        (remove_component 0 0 (add_component 0 0 (35 : Nat) sample2).2).2).2).1 =
      some 99 :=
  (claim_C6_amended sample2 0 0 35 99 (reached_inv sample2_reached).1
    (by decide)).2.2.2.2.1

/-- C7: `destroy_entity` changes at most the liveness flag of the destroyed
entity — pools, registry, counters and every other liveness flag are
untouched — and a component readable before the destruction is still
readable, with the same value, afterwards. -/
theorem claim_C7 {Val : Type} [Inhabited Val] (w : World Val) (e e2 h : Nat) (v : Val) :
    ((destroy_entity w e).pools = w.pools ∧
     (destroy_entity w e).typeMap = w.typeMap ∧
     (destroy_entity w e).typeCounter = w.typeCounter ∧
     (destroy_entity w e).nextEntity = w.nextEntity ∧
     (destroy_entity w e).alive.length = w.alive.length ∧
     (e2 ≠ e → (destroy_entity w e).alive.getD e2 false = w.alive.getD e2 false)) ∧
    ((get_component h e w).1 = some v →
      (get_component h e (destroy_entity w e)).1 = some v) := by
  refine ⟨⟨(destroy_entity_fields w e).1, (destroy_entity_fields w e).2.1,
    (destroy_entity_fields w e).2.2.1, (destroy_entity_fields w e).2.2.2.1,
    (destroy_entity_fields w e).2.2.2.2, fun hne => destroy_alive_getD_ne hne⟩, ?_⟩
  intro hg
  rw [get_fst_congr (destroy_entity_fields w e).2.1 (destroy_entity_fields w e).1
    (destroy_entity_fields w e).2.2.1 h e]
  exact hg

theorem claim_C7_witness :
    (get_component 0 0 (destroy_entity sampleAdd 0)).1 = some 35 :=
  (claim_C7 sampleAdd 0 1 0 (35 : Nat)).2 (by decide)

/-- C8 counterexample: create one entity, attach one component, then create
`2 ^ 32` further entities.  The state is reachable with `2 ^ 32 + 1`
entities ever created, yet the pool's value array has length `2 ^ 32` — the
32-bit entity counter wrapped, refuting
`len(values) = number of entities ever created`. -/
theorem claim_C8_counterexample :
    Reached (createN (2 ^ 32)
      (add_component 0 0 (0 : Nat) (create_entity (World.init : World Nat)).2).2)
      (2 ^ 32 + 1) ∧
    ∃ p : Pool Nat,
      ((createN (2 ^ 32)
        (add_component 0 0 (0 : Nat) (create_entity (World.init : World Nat)).2).2).pools.getD
          0 none) = some p ∧
      p.data.length = 2 ^ 32 ∧ 2 ^ 32 ≠ 2 ^ 32 + 1 := by
  set wa : World Nat :=
    (add_component 0 0 (0 : Nat) (create_entity (World.init : World Nat)).2).2 with hwa
  set W : World Nat := createN (2 ^ 32) wa with hW
  have hra : Reached wa 1 := Reached.add 0 0 0 (Reached.create Reached.init)
  have hrW : Reached W (2 ^ 32 + 1) := by
    have hx := reached_createN hra (2 ^ 32)
    rw [Nat.add_comm 1 (2 ^ 32)] at hx
    exact hx
  refine ⟨hrW, ?_⟩
  have hsome : ((W.pools.getD 0 none)).isSome = true := by
    rw [hW, createN_pool_isSome]
    decide
  obtain ⟨p, hp⟩ := Option.isSome_iff_exists.1 hsome
  refine ⟨p, hp, ?_, by omega⟩
  obtain ⟨hwi, hC⟩ := reached_inv hrW
  obtain ⟨h1, _⟩ := hwi.1 (some p) (mem_of_getD_eq_some hp) p rfl
  rw [h1, hC.1]
  exact min_succ_pow

/-- C8 (amended): in every reachable world, every materialized pool has
`len(values) = len(presence flags) = length of the liveness table
= min(number of entities ever created, 2 ^ 32)` — the lengths equal the
creation count only until the 32-bit entity counter wraps — and no public
operation ever shrinks a pool's arrays. -/
theorem claim_C8_amended {Val : Type} [Inhabited Val] (w : World Val) (n : Nat)
    (hr : Reached w n) :
    w.alive.length = min n (2 ^ 32) ∧
    (∀ p : Pool Val, some p ∈ w.pools →
      p.data.length = min n (2 ^ 32) ∧ p.mask.length = min n (2 ^ 32)) ∧
    (∀ op : Op Val, Grows w (op.apply w)) := by
  obtain ⟨hw, hC⟩ := reached_inv hr
  refine ⟨hC.1, ?_, op_grows hw⟩
  intro p hp
  obtain ⟨h1, h2⟩ := hw.1 (some p) hp p rfl
  rw [h1, h2, hC.1]
  exact ⟨rfl, rfl⟩

theorem claim_C8_witness :
    sampleAdd.alive.length = min 2 (2 ^ 32) :=
  (claim_C8_amended sampleAdd 2 sampleAdd_reached).1

/-- C10: a successful `add_component` changes no other observable
association — every `get_component` of a different (type, entity) pair
reports the same result as before — and leaves every liveness flag and the
entity counter unchanged. -/
theorem claim_C10 {Val : Type} [Inhabited Val] (w : World Val) (h e : Nat) (v : Val)
    (hw : Inv w) (hok : (add_component h e v w).1 = Status.OK) :
    ((add_component h e v w).2).alive = w.alive ∧
    ((add_component h e v w).2).nextEntity = w.nextEntity ∧
    ∀ h2 e2, ¬(h2 = h ∧ e2 = e) →
      (get_component h2 e2 (add_component h e v w).2).1 = (get_component h2 e2 w).1 := by
  have hc : ¬(w.alive.length ≤ e ∨ w.alive.getD e false = false) := by
    intro hcc
    rw [add_component_err h v hcc] at hok
    exact Status.noConfusion hok
  refine ⟨(add_component_frame h e v w).1, (add_component_frame h e v w).2, ?_⟩
  intro h2 e2 hne
  rw [get_component_observe (add_component_inv hw h e v) h2 e2,
    get_component_observe hw h2 e2]
  exact add_observe_other hw hc hne

theorem claim_C10_witness :
    (get_component 1 1 (add_component 0 0 (35 : Nat) sampleQ).2).1 =
      (get_component 1 1 sampleQ).1 :=
  (claim_C10 sampleQ 0 0 35 (reached_inv sampleQ_reached).1 (by decide)).2.2 1 1
    (by decide)

end ec
